import Mathlib

/-!
Verification development for the BARF binary-analysis framework core:
shallow embeddings of

* the REIL intermediate representation and the x86 control-transfer lifter
  (`barf/arch/x86/translators/control.py`),
* the SMT expression layer (`barf/core/smt/smtlibv2.py`) and the REIL-to-SMT
  translator (`barf/core/smt/smttranslator.py`),
* the solver supervisor (`Z3Solver` in `barf/core/smt/smtlibv2.py`),

together with theorems settling the specification claims about them.
Python integers are modelled as `Int`; Python dictionaries as association
lists with most-recent-binding-first lookup.
-/

namespace BarfSpec

/-- Association-list lookup, modelling Python dictionary access (the newest
binding for a key shadows older ones, matching dict overwrite). -/
def lookupA {α : Type} : List (String × α) → String → Option α
  | [], _ => none
  | (k', v) :: rest, k => if k' = k then some v else lookupA rest k

/- ------------------------------------------------------------------ -/
/- REIL data model and translation builder                             -/
/- ------------------------------------------------------------------ -/

/-- REIL operands: register, immediate, label (a symbolic forward reference
used by the translation builder) and the empty third-operand slot.
Mirrors `ReilRegisterOperand` / `ReilImmediateOperand` / `ReilEmptyOperand`. -/
inductive ReilOperand : Type where
  | reg (name : String) (size : Int)
  | imm (value : Int) (size : Int)
  | lbl (name : String)
  | empty
deriving DecidableEq, Repr, BEq

/-- Operand width accessor (`operand.size`).  Labels and the empty operand
have no meaningful width; returning `0` makes every width assert
(`assert oprnd.size`, a Python truthiness test) fail on them, as misuse
fails in the source. -/
def ReilOperand.size : ReilOperand → Int
  | .reg _ s => s
  | .imm _ s => s
  | .lbl _ => 0
  | .empty => 0

/-- REIL mnemonics (`ReilMnemonic`). -/
inductive ReilMn : Type where
  | ADD | SUB | MUL | DIV | SDIV | MOD | SMOD | BSH
  | AND | OR | XOR
  | LDM | STM | STR
  | BISZ | JCC
  | UNDEF | UNKN | NOP | RET
  | SEXT
deriving DecidableEq, Repr, BEq

/-- A REIL instruction: mnemonic plus three operand slots. -/
structure ReilInstr : Type where
  mnemonic : ReilMn
  o1 : ReilOperand
  o2 : ReilOperand
  o3 : ReilOperand
deriving DecidableEq, Repr, BEq

/-- Modelled from the spec: `ReilBuilder.gen_str` (the REIL instruction
builder, `barf/core/reil`, is not under src/; §4.1 of the spec describes it).
A two-operand generator leaves the middle slot empty. -/
def gen_str (src dst : ReilOperand) : ReilInstr := ⟨.STR, src, .empty, dst⟩

/-- Modelled from the spec: `ReilBuilder.gen_bsh`. -/
def gen_bsh (a b c : ReilOperand) : ReilInstr := ⟨.BSH, a, b, c⟩

/-- Modelled from the spec: `ReilBuilder.gen_sub`. -/
def gen_sub (a b c : ReilOperand) : ReilInstr := ⟨.SUB, a, b, c⟩

/-- Modelled from the spec: `ReilBuilder.gen_jcc`. -/
def gen_jcc (cond target : ReilOperand) : ReilInstr := ⟨.JCC, cond, .empty, target⟩

/-- Modelled from the spec: `ReilBuilder.gen_bisz`. -/
def gen_bisz (src dst : ReilOperand) : ReilInstr := ⟨.BISZ, src, .empty, dst⟩

/-- Modelled from the spec: `ReilBuilder.gen_xor`. -/
def gen_xor (a b c : ReilOperand) : ReilInstr := ⟨.XOR, a, b, c⟩

/-- Modelled from the spec: `ReilBuilder.gen_and`. -/
def gen_and (a b c : ReilOperand) : ReilInstr := ⟨.AND, a, b, c⟩

/-- An item of the translation builder's append list: an instruction or a
label marker (labels are resolved by a later linking pass, §4.1). -/
inductive TBItem : Type where
  | ins (i : ReilInstr)
  | mark (l : String)
deriving DecidableEq, Repr, BEq

/-- Modelled from the spec: the translation builder state (§4.1) — a fresh
temporary counter (temporaries are named `t0, t1, …`) and the append list of
emitted items. -/
structure TBState : Type where
  nextTemp : Nat
  items : List TBItem
deriving DecidableEq, Repr

/-- Modelled from the spec: `tb.temporal(width)` allocates the next
monotonically numbered temporary. -/
def TBState.temporal (st : TBState) (size : Int) : ReilOperand × TBState :=
  (.reg ("t" ++ toString st.nextTemp) size, { st with nextTemp := st.nextTemp + 1 })

/-- Modelled from the spec: `tb.add(instr)` appends an instruction. -/
def TBState.addI (st : TBState) (i : ReilInstr) : TBState :=
  { st with items := st.items ++ [.ins i] }

/-- Modelled from the spec: `tb.add(label)` appends a label marker. -/
def TBState.addMark (st : TBState) (l : String) : TBState :=
  { st with items := st.items ++ [.mark l] }

/-- x86 architecture mode (`ARCH_X86_MODE_32` / `ARCH_X86_MODE_64`). -/
inductive X86Mode : Type where
  | mode32
  | mode64
deriving DecidableEq, Repr

/-- The loop-family counter register (`ecx` / `rcx`), per `_translate_loop`
and friends. -/
def counterReg : X86Mode → ReilOperand
  | .mode32 => .reg "ecx" 32
  | .mode64 => .reg "rcx" 64

/-- The zero flag operand `self._flags["zf"]` (modelled from the spec: flags
are boolean-width (1) registers, §4.2). -/
def zfReg : ReilOperand := .reg "zf" 1

/-- `_translate_address` (control.py, lines 33-46): encode a jump-target
operand.  The width is extended by 8; an immediate is shifted left by 8
(`value << 8 = value * 256` on Python integers); a register is copied into a
fresh extended-width temporary and barrel-shifted left by the constant 8.
Any other operand kind leaves `addr_oprnd` unbound in the source
(`UnboundLocalError`), modelled as an error. -/
def translate_address (oprnd : ReilOperand) (st : TBState) :
    Except String (ReilOperand × TBState) :=
  match oprnd with
  | .reg _ size =>
    let p1 := st.temporal (size + 8)
    let p2 := p1.2.temporal (size + 8)
    let imm8 : ReilOperand := .imm 8 (size + 8)
    let st3 := p2.2.addI (gen_str oprnd p1.1)
    let st4 := st3.addI (gen_bsh p1.1 imm8 p2.1)
    .ok (p2.1, st4)
  | .imm v size => .ok (.imm (v * 256) (size + 8), st)
  | _ => .error "UnboundLocalError: addr_oprnd"

/-- `_translate_jcc` (control.py, lines 63-78), abstracted over the flag
condition evaluator `eval_cond_fn` (the `_evaluate_*` helpers live outside
control.py): translate the target address, then emit a single conditional
jump on the evaluated condition. -/
def translate_jcc (evalCond : TBState → ReilOperand × TBState)
    (oprnd0 : ReilOperand) (st : TBState) : Except String TBState :=
  (translate_address oprnd0 st).bind fun r =>
    let p := evalCond r.2
    .ok (p.2.addI (gen_jcc p.1 r.1))

/-- `_translate_loop` (control.py, lines 267-286): save the counter, decrement
it, and jump back to the target while it is nonzero.  No other items are
emitted. -/
def translate_loop (mode : X86Mode) (oprnd0 : ReilOperand) (st : TBState) :
    Except String TBState :=
  let counter := counterReg mode
  (translate_address oprnd0 st).bind fun r =>
    let p := r.2.temporal counter.size
    let imm0 : ReilOperand := .imm 1 counter.size
    let st3 := p.2.addI (gen_str counter p.1)
    let st4 := st3.addI (gen_sub p.1 imm0 counter)
    .ok (st4.addI (gen_jcc counter r.1))

/-- `_translate_loopne` (control.py, lines 289-325): decrement the counter,
compute `counter ≠ 0 ∧ ZF = 0`, jump to an internal label when looping, and
otherwise fall through via an unconditional jump to `(address + size) << 8`. -/
def translate_loopne (mode : X86Mode) (archAddrSize : Int) (oprnd0 : ReilOperand)
    (insAddr insSize : Int) (st : TBState) : Except String TBState :=
  let counter := counterReg mode
  (translate_address oprnd0 st).bind fun r =>
    let endAddr : ReilOperand := .imm ((insAddr + insSize) * 256) (archAddrSize + 8)
    let t0 := r.2.temporal counter.size
    let tCz := t0.2.temporal 1
    let tCnz := tCz.2.temporal 1
    let tZz := tCnz.2.temporal 1
    let tBc := tZz.2.temporal 1
    let imm0 : ReilOperand := .imm 1 counter.size
    let imm1 : ReilOperand := .imm 1 1
    let s1 := tBc.2.addI (gen_str counter t0.1)
    let s2 := s1.addI (gen_sub t0.1 imm0 counter)
    let s3 := s2.addI (gen_bisz counter tCz.1)
    let s4 := s3.addI (gen_bisz zfReg tZz.1)
    let s5 := s4.addI (gen_xor tCz.1 imm1 tCnz.1)
    let s6 := s5.addI (gen_and tCnz.1 tZz.1 tBc.1)
    let s7 := s6.addI (gen_jcc tBc.1 (.lbl "keep_looping"))
    let s8 := s7.addI (gen_jcc imm0 endAddr)
    let s9 := s8.addMark "keep_looping"
    .ok (s9.addI (gen_jcc imm0 r.1))

/-- `_translate_loope` (control.py, lines 332-370): like `loopne` but the
branch condition is `counter ≠ 0 ∧ ZF ≠ 0` (an extra negation of
`zf_zero`). -/
def translate_loope (mode : X86Mode) (archAddrSize : Int) (oprnd0 : ReilOperand)
    (insAddr insSize : Int) (st : TBState) : Except String TBState :=
  let counter := counterReg mode
  (translate_address oprnd0 st).bind fun r =>
    let endAddr : ReilOperand := .imm ((insAddr + insSize) * 256) (archAddrSize + 8)
    let t0 := r.2.temporal counter.size
    let tCz := t0.2.temporal 1
    let tCnz := tCz.2.temporal 1
    let tZz := tCnz.2.temporal 1
    let tZnz := tZz.2.temporal 1
    let tBc := tZnz.2.temporal 1
    let imm0 : ReilOperand := .imm 1 counter.size
    let imm1 : ReilOperand := .imm 1 1
    let s1 := tBc.2.addI (gen_str counter t0.1)
    let s2 := s1.addI (gen_sub t0.1 imm0 counter)
    let s3 := s2.addI (gen_bisz counter tCz.1)
    let s4 := s3.addI (gen_bisz zfReg tZz.1)
    let s5 := s4.addI (gen_xor tZz.1 imm1 tZnz.1)
    let s6 := s5.addI (gen_xor tCz.1 imm1 tCnz.1)
    let s7 := s6.addI (gen_and tCnz.1 tZnz.1 tBc.1)
    let s8 := s7.addI (gen_jcc tBc.1 (.lbl "keep_looping"))
    let s9 := s8.addI (gen_jcc imm0 endAddr)
    let s10 := s9.addMark "keep_looping"
    .ok (s10.addI (gen_jcc imm0 r.1))

/-- Does this item emit any `JCC` at all? -/
def isJccItem : TBItem → Bool
  | .ins ⟨.JCC, _, _, _⟩ => true
  | _ => false

/-- Is this item an unconditional fall-through jump, i.e. a `JCC` whose
condition is the constant immediate `1` and whose target is the immediate
`endAddr << 8`? -/
def isFallthroughJcc (endAddr : Int) : TBItem → Bool
  | .ins ⟨.JCC, .imm c _, _, .imm t _⟩ => c == 1 && t == endAddr * 256
  | _ => false

/-- Does the emitted item list contain an unconditional fall-through jump to
`endAddr << 8`? -/
def hasFallthrough (items : List TBItem) (endAddr : Int) : Bool :=
  items.any (isFallthroughJcc endAddr)

/- ------------------------------------------------------------------ -/
/- SMT expression layer used by the REIL-to-SMT translator             -/
/- ------------------------------------------------------------------ -/

/-- SMT bitvector expression tree.  The translator builds expressions through
the `smtsymbol`/`smtfunction` modules (not under src/); the constructors here
record the operator name and the children in call order, mirroring both the
spec's tagged-variant expression tree (§3) and the constructions of
`smtlibv2.py`'s `BitVec` class and `EXTRACT`/`ZEXTEND` helpers, which are
under src/.  Widths and indices are `Int`, mirroring Python integers. -/
inductive SmtBV : Type where
  | var (size : Int) (name : String)
  | hexconst (size : Int) (val : Int)
  | binop (size : Int) (op : String) (a b : SmtBV)
  | extract (size : Int) (hi lo : Int) (a : SmtBV)
  | zeroext (size : Int) (n : Int) (a : SmtBV)
deriving DecidableEq, Repr

/-- Node width (`self.size`). -/
def SmtBV.size : SmtBV → Int
  | .var s _ => s
  | .hexconst s _ => s
  | .binop s _ _ _ => s
  | .extract s _ _ _ => s
  | .zeroext s _ _ => s

/-- `BitVec.__add__`: `(bvadd a b)` at the left operand's width. -/
def SmtBV.bvadd (a b : SmtBV) : SmtBV := .binop a.size "bvadd" a b

/-- `BitVec.__sub__`: `(bvsub a b)`. -/
def SmtBV.bvsub (a b : SmtBV) : SmtBV := .binop a.size "bvsub" a b

/-- `BitVec.__mul__`: `(bvmul a b)`. -/
def SmtBV.bvmul (a b : SmtBV) : SmtBV := .binop a.size "bvmul" a b

/-- `BitVec.udiv`: `(bvudiv a b)`. -/
def SmtBV.udiv (a b : SmtBV) : SmtBV := .binop a.size "bvudiv" a b

/-- `BitVec.__div__`: `(bvsdiv a b)`. -/
def SmtBV.sdivOp (a b : SmtBV) : SmtBV := .binop a.size "bvsdiv" a b

/-- `BitVec.umod`: `(bvurem a b)`. -/
def SmtBV.umod (a b : SmtBV) : SmtBV := .binop a.size "bvurem" a b

/-- `BitVec.__mod__`: `(bvsmod a b)` — left operand first. -/
def SmtBV.modOp (a b : SmtBV) : SmtBV := .binop a.size "bvsmod" a b

/-- `EXTRACT(s, offset, size)` (smtlibv2.py, lines 1106-1113, identical to
`smtfunction.extract`): identity when the extraction spans the whole vector,
otherwise the node `(_ extract (offset+size-1) offset)`. -/
def EXTRACT (s : SmtBV) (offset size : Int) : SmtBV :=
  if offset = 0 ∧ size = s.size then s
  else .extract size (offset + size - 1) offset s

/-- `ZEXTEND(x, size)` (smtlibv2.py, lines 1068-1075, identical to
`smtfunction.zero_extend`): asserts `size - x.size ≥ 0`; identity when the
widths already agree, otherwise `(_ zero_extend (size - x.size))`. -/
def ZEXTEND (x : SmtBV) (size : Int) : Except String SmtBV :=
  if size - x.size < 0 then .error "ZEXTEND: assert size - x.size >= 0"
  else if size - x.size = 0 then .ok x
  else .ok (.zeroext size (size - x.size) x)

/-- `smtsymbol.Constant(size, value)`: a bitvector literal; the value is
masked to the width as in `BitVec.cast` (`val & ((1 << size) - 1)`). -/
def Constant (size val : Int) : SmtBV := .hexconst size (val % (2 : Int) ^ size.toNat)

/-- SMT array expression tree (`Array_`): a declared base array or a nested
`(store a key val)`. -/
inductive SmtArr : Type where
  | base (size : Int) (name : String)
  | store (a : SmtArr) (key val : SmtBV)
deriving DecidableEq, Repr

/-- Asserted constraints: bitvector equality (`Bool('=', a, b)`) or array
equality (`Array.__eq__`). -/
inductive SmtConstr : Type where
  | eqc (a b : SmtBV)
  | eqArr (a b : SmtArr)
deriving DecidableEq, Repr

/-- A declared solver symbol as stored in the declaration cache: either a
bitvector variable or an array. -/
inductive SmtSym : Type where
  | bvSym (b : SmtBV)
  | arrSym (a : SmtArr)
deriving DecidableEq, Repr

/-- Use a cached declaration as a bitvector.  The Python code uses whatever
object the cache returns as a `BitVec`; if it is an array every subsequent
operation fails with a type error, modelled as an error here. -/
def SmtSym.asBV : SmtSym → Except String SmtBV
  | .bvSym b => .ok b
  | .arrSym _ => .error "TypeError: expected BitVec"

/- ------------------------------------------------------------------ -/
/- REIL-to-SMT translator (SmtTranslator)                              -/
/- ------------------------------------------------------------------ -/

/-- Bitvector widths accepted by `make_bitvec` / `mkBitVec`. -/
def bvSizes : List Int := [1, 8, 16, 32, 40, 64, 72, 128, 256]

/-- Array index widths accepted by `SmtTranslator.make_array`. -/
def trArraySizes : List Int := [32, 64]

/-- `SmtTranslator` state: the architecture address size, the register alias
mapper (`sub_name → (base_name, bit_offset)`), the base-register widths, the
SSA version counters (`VariableNamer`s), the solver declaration cache, and
the memory version with the current memory array. -/
structure TrState : Type where
  addrSize : Int
  aliasMapper : List (String × (String × Int))
  regSizes : List (String × Int)
  versions : List (String × Nat)
  decls : List (String × SmtSym)
  memInstance : Nat
  memCurr : SmtArr
deriving DecidableEq, Repr

/-- Modelled from the spec: `VariableNamer` / `_get_var_name`
(`barf.utils.utils` is not under src/; §3 of the spec defines the SSA name
state): `get_current` returns `name_k` for the current version `k` (zero on
first registration); `get_next` increments the version and returns the new
name. -/
def getVarName (st : TrState) (name : String) (fresh : Bool) : String × TrState :=
  let k := (lookupA st.versions name).getD 0
  if fresh then
    (name ++ "_" ++ toString (k + 1), { st with versions := (name, k + 1) :: st.versions })
  else
    (name ++ "_" ++ toString k, { st with versions := (name, k) :: st.versions })

/-- `SmtTranslator.make_bitvec` (smttranslator.py, lines 198-208): assert the
width is admissible; return the cached declaration when the name is already
declared, otherwise declare a fresh bitvector variable. -/
def make_bitvec (st : TrState) (size : Int) (name : String) :
    Except String (SmtSym × TrState) :=
  if size ∈ bvSizes then
    match lookupA st.decls name with
    | some s => .ok (s, st)
    | none =>
      .ok (.bvSym (.var size name), { st with decls := (name, .bvSym (.var size name)) :: st.decls })
  else .error "make_bitvec: assert size"

/-- `SmtTranslator.make_array` (smttranslator.py, lines 210-220). -/
def make_array (st : TrState) (size : Int) (name : String) :
    Except String (SmtSym × TrState) :=
  if size ∈ trArraySizes then
    match lookupA st.decls name with
    | some s => .ok (s, st)
    | none =>
      .ok (.arrSym (.base size name), { st with decls := (name, .arrSym (.base size name)) :: st.decls })
  else .error "make_array: assert size"

/-- `_translate_src_oprnd` (smttranslator.py, lines 243-292): an immediate
becomes a constant; a register resolves through the alias mapper (reading the
base register at its full width and extracting the aliased bit range) or,
unaliased, just its current SSA version. -/
def translate_src_oprnd (st : TrState) (operand : ReilOperand) :
    Except String (SmtBV × TrState) :=
  match operand with
  | .reg name sz =>
    match lookupA st.aliasMapper name with
    | some (base, off) =>
      match lookupA st.regSizes base with
      | some vsize =>
        let p := getVarName st base false
        (make_bitvec p.2 vsize p.1).bind fun q =>
          q.1.asBV.bind fun bv => .ok (EXTRACT bv off sz, q.2)
      | none => .error "KeyError: register size"
    | none =>
      let p := getVarName st name false
      (make_bitvec p.2 sz p.1).bind fun q =>
        q.1.asBV.bind fun bv => .ok (bv, q.2)
  | .imm v sz => .ok (Constant sz v, st)
  | _ => .error "Invalid source type"

/-- `_translate_dst_register_oprnd` (smttranslator.py, lines 294-345): for an
aliased destination `(base, offset)` of width `operand.size` inside a base of
width `vsize`, allocate a fresh SSA version of the base, return the written
bit range as the destination expression, and emit constraints equating bit
ranges of the fresh base to the previous version: both the range below
`offset` and the range above `offset + size` when `0 < offset < vsize - 1`,
only the upper range when `offset = 0`, and only the lower range when
`offset = vsize - 1`.  An unaliased destination is simply a fresh SSA
version of itself, with no extra constraints. -/
def translate_dst_register_oprnd (st : TrState) (name : String) (sz : Int) :
    Except String (SmtBV × List SmtConstr × TrState) :=
  match lookupA st.aliasMapper name with
  | some (base, off) =>
    match lookupA st.regSizes base with
    | some vsize =>
      let pOld := getVarName st base false
      let pNew := getVarName pOld.2 base true
      (make_bitvec pNew.2 vsize pNew.1).bind fun qNew =>
        qNew.1.asBV.bind fun newBV =>
          (make_bitvec qNew.2 vsize pOld.1).bind fun qOld =>
            qOld.1.asBV.bind fun oldBV =>
              let constrs :=
                if 0 < off ∧ off < vsize - 1 then
                  [SmtConstr.eqc (EXTRACT newBV 0 off) (EXTRACT oldBV 0 off),
                   SmtConstr.eqc (EXTRACT newBV (off + sz) (vsize - off - sz))
                     (EXTRACT oldBV (off + sz) (vsize - off - sz))]
                else if off = 0 then
                  [SmtConstr.eqc (EXTRACT newBV (off + sz) (vsize - off - sz))
                     (EXTRACT oldBV (off + sz) (vsize - off - sz))]
                else if off = vsize - 1 then
                  [SmtConstr.eqc (EXTRACT newBV 0 off) (EXTRACT oldBV 0 off)]
                else []
              .ok (EXTRACT newBV off sz, constrs, qOld.2)
    | none => .error "KeyError: register size"
  | none =>
    let p := getVarName st name true
    (make_bitvec p.2 sz p.1).bind fun q =>
      q.1.asBV.bind fun bv => .ok (bv, [], q.2)

/-- `_translate_dst_oprnd` (smttranslator.py, lines 260-271): only register
destinations are valid. -/
def translate_dst_oprnd (st : TrState) (operand : ReilOperand) :
    Except String (SmtBV × List SmtConstr × TrState) :=
  match operand with
  | .reg name sz => translate_dst_register_oprnd st name sz
  | _ => .error "Invalid destination type"

/-- `_translate_add` (smttranslator.py, lines 356-378): require nonzero widths
and `w1 = w2`; zero-extend both sources to `w3` when `w3 > w1`, truncate the
`w1`-wide sum to its low `w3` bits when `w3 < w1`, and add directly when the
widths agree. -/
def translate_add (st : TrState) (o1 o2 o3 : ReilOperand) :
    Except String (List SmtConstr × TrState) :=
  if o1.size = 0 ∨ o2.size = 0 ∨ o3.size = 0 then .error "assert oprnd sizes"
  else if o1.size ≠ o2.size then .error "assert oprnd1.size == oprnd2.size"
  else
    (translate_src_oprnd st o1).bind fun p1 =>
      (translate_src_oprnd p1.2 o2).bind fun p2 =>
        (translate_dst_oprnd p2.2 o3).bind fun p3 =>
          if o3.size > o1.size then
            (ZEXTEND p1.1 o3.size).bind fun z1 =>
              (ZEXTEND p2.1 o3.size).map fun z2 =>
                (SmtConstr.eqc p3.1 (z1.bvadd z2) :: p3.2.1, p3.2.2)
          else if o3.size < o1.size then
            .ok (SmtConstr.eqc p3.1 (EXTRACT (p1.1.bvadd p2.1) 0 o3.size) :: p3.2.1, p3.2.2)
          else
            .ok (SmtConstr.eqc p3.1 (p1.1.bvadd p2.1) :: p3.2.1, p3.2.2)

/-- `_translate_sub` (smttranslator.py, lines 380-402): as `_translate_add`
with subtraction. -/
def translate_sub (st : TrState) (o1 o2 o3 : ReilOperand) :
    Except String (List SmtConstr × TrState) :=
  if o1.size = 0 ∨ o2.size = 0 ∨ o3.size = 0 then .error "assert oprnd sizes"
  else if o1.size ≠ o2.size then .error "assert oprnd1.size == oprnd2.size"
  else
    (translate_src_oprnd st o1).bind fun p1 =>
      (translate_src_oprnd p1.2 o2).bind fun p2 =>
        (translate_dst_oprnd p2.2 o3).bind fun p3 =>
          if o3.size > o1.size then
            (ZEXTEND p1.1 o3.size).bind fun z1 =>
              (ZEXTEND p2.1 o3.size).map fun z2 =>
                (SmtConstr.eqc p3.1 (z1.bvsub z2) :: p3.2.1, p3.2.2)
          else if o3.size < o1.size then
            .ok (SmtConstr.eqc p3.1 (EXTRACT (p1.1.bvsub p2.1) 0 o3.size) :: p3.2.1, p3.2.2)
          else
            .ok (SmtConstr.eqc p3.1 (p1.1.bvsub p2.1) :: p3.2.1, p3.2.2)

/-- `_translate_mul` (smttranslator.py, lines 404-426): as `_translate_add`
with multiplication. -/
def translate_mul (st : TrState) (o1 o2 o3 : ReilOperand) :
    Except String (List SmtConstr × TrState) :=
  if o1.size = 0 ∨ o2.size = 0 ∨ o3.size = 0 then .error "assert oprnd sizes"
  else if o1.size ≠ o2.size then .error "assert oprnd1.size == oprnd2.size"
  else
    (translate_src_oprnd st o1).bind fun p1 =>
      (translate_src_oprnd p1.2 o2).bind fun p2 =>
        (translate_dst_oprnd p2.2 o3).bind fun p3 =>
          if o3.size > o1.size then
            (ZEXTEND p1.1 o3.size).bind fun z1 =>
              (ZEXTEND p2.1 o3.size).map fun z2 =>
                (SmtConstr.eqc p3.1 (z1.bvmul z2) :: p3.2.1, p3.2.2)
          else if o3.size < o1.size then
            .ok (SmtConstr.eqc p3.1 (EXTRACT (p1.1.bvmul p2.1) 0 o3.size) :: p3.2.1, p3.2.2)
          else
            .ok (SmtConstr.eqc p3.1 (p1.1.bvmul p2.1) :: p3.2.1, p3.2.2)

/-- `_translate_div` (smttranslator.py, lines 428-441): require nonzero widths,
`w1 = w2` and `w2 = w3`; assert `dst = (bvudiv a b)`. -/
def translate_div (st : TrState) (o1 o2 o3 : ReilOperand) :
    Except String (List SmtConstr × TrState) :=
  if o1.size = 0 ∨ o2.size = 0 ∨ o3.size = 0 then .error "assert oprnd sizes"
  else if o1.size ≠ o2.size then .error "assert oprnd1.size == oprnd2.size"
  else if o2.size ≠ o3.size then .error "assert oprnd2.size == oprnd3.size"
  else
    (translate_src_oprnd st o1).bind fun p1 =>
      (translate_src_oprnd p1.2 o2).bind fun p2 =>
        (translate_dst_oprnd p2.2 o3).map fun p3 =>
          (SmtConstr.eqc p3.1 (p1.1.udiv p2.1) :: p3.2.1, p3.2.2)

/-- `_translate_sdiv` (smttranslator.py, lines 443-456): as `_translate_div`
with the signed operator `/` (`bvsdiv`). -/
def translate_sdiv (st : TrState) (o1 o2 o3 : ReilOperand) :
    Except String (List SmtConstr × TrState) :=
  if o1.size = 0 ∨ o2.size = 0 ∨ o3.size = 0 then .error "assert oprnd sizes"
  else if o1.size ≠ o2.size then .error "assert oprnd1.size == oprnd2.size"
  else if o2.size ≠ o3.size then .error "assert oprnd2.size == oprnd3.size"
  else
    (translate_src_oprnd st o1).bind fun p1 =>
      (translate_src_oprnd p1.2 o2).bind fun p2 =>
        (translate_dst_oprnd p2.2 o3).map fun p3 =>
          (SmtConstr.eqc p3.1 (p1.1.sdivOp p2.1) :: p3.2.1, p3.2.2)

/-- `_translate_mod` (smttranslator.py, lines 458-479): the `w2 = w3` assert is
commented out in the source; the translation computes `bvurem` directly when
`w1 = w3`, zero-extends both sources when `w3 > w1`, and raises only when
`w3 < w1`. -/
def translate_mod (st : TrState) (o1 o2 o3 : ReilOperand) :
    Except String (List SmtConstr × TrState) :=
  if o1.size = 0 ∨ o2.size = 0 ∨ o3.size = 0 then .error "assert oprnd sizes"
  else if o1.size ≠ o2.size then .error "assert oprnd1.size == oprnd2.size"
  else
    (translate_src_oprnd st o1).bind fun p1 =>
      (translate_src_oprnd p1.2 o2).bind fun p2 =>
        (translate_dst_oprnd p2.2 o3).bind fun p3 =>
          if o1.size = o3.size then
            .ok (SmtConstr.eqc p3.1 (p1.1.umod p2.1) :: p3.2.1, p3.2.2)
          else if o3.size > o1.size then
            (ZEXTEND p1.1 o3.size).bind fun z1 =>
              (ZEXTEND p2.1 o3.size).map fun z2 =>
                (SmtConstr.eqc p3.1 (z1.umod z2) :: p3.2.1, p3.2.2)
          else .error "Error"

/-- `_translate_smod` (smttranslator.py, lines 481-494): require
`w1 = w2 = w3`; assert `dst = (bvsmod a b)` via the overloaded `%`
operator, first source first. -/
def translate_smod (st : TrState) (o1 o2 o3 : ReilOperand) :
    Except String (List SmtConstr × TrState) :=
  if o1.size = 0 ∨ o2.size = 0 ∨ o3.size = 0 then .error "assert oprnd sizes"
  else if o1.size ≠ o2.size then .error "assert oprnd1.size == oprnd2.size"
  else if o2.size ≠ o3.size then .error "assert oprnd2.size == oprnd3.size"
  else
    (translate_src_oprnd st o1).bind fun p1 =>
      (translate_src_oprnd p1.2 o2).bind fun p2 =>
        (translate_dst_oprnd p2.2 o3).map fun p3 =>
          (SmtConstr.eqc p3.1 (p1.1.modOp p2.1) :: p3.2.1, p3.2.2)

/-- The `for i in xrange(0, size, 8)` store loop of `_translate_stm`
(smttranslator.py, lines 630-631): store byte `(_ extract (i+7) i)` of the
source at address `where + i/8`, for `i = 0, 8, …` below `size`
(`xrange(0, size, 8)` has `max(0, ⌈size/8⌉)` elements).  Each store goes
through `Array.__setitem__` (smtlibv2.py, lines 409-411), wrapping the
current array in a `store` node. -/
def stmStores (mem : SmtArr) (whereBV srcBV : SmtBV) (size : Int) : SmtArr :=
  ((List.range ((size + 7) / 8).toNat).map (fun (m : Nat) => 8 * (m : Int))).foldl
    (fun acc i =>
      acc.store (whereBV.bvadd (Constant whereBV.size (i / 8))) (EXTRACT srcBV i 8)) mem

/-- `_translate_stm` (smttranslator.py, lines 618-641): assert nonzero widths
and `w3 = address size`; store the source bytes little-endian at consecutive
addresses, bump the memory version, declare the fresh array `MEM_{k+1}` and
return the single constraint `MEM_{k+1} = store-chain`. -/
def translate_stm (st : TrState) (o1 o2 o3 : ReilOperand) :
    Except String (List SmtConstr × TrState) :=
  if o1.size = 0 ∨ o3.size = 0 then .error "assert oprnd sizes"
  else if o3.size ≠ st.addrSize then .error "assert oprnd3.size == address_size"
  else
    (translate_src_oprnd st o1).bind fun p1 =>
      (translate_src_oprnd p1.2 o3).bind fun p3 =>
        let memOld := stmStores p3.2.memCurr p3.1 p1.1 o1.size
        let newInstance := p3.2.memInstance + 1
        (make_array p3.2 st.addrSize ("MEM_" ++ toString newInstance)).bind fun q =>
          match q.1 with
          | .arrSym newArr =>
            .ok ([SmtConstr.eqArr newArr memOld],
              { q.2 with memInstance := newInstance, memCurr := newArr })
          | .bvSym _ => .error "TypeError: expected Array"

/-- Modelled from the spec: the nested-store chain
`store(store(… store(MEM_k, addr+0, src[7:0]) …), addr+n, src[top:])` (§4.5),
one byte per 8 bits of the source, least-significant byte at the lowest
address. -/
def stmChainSpec (mem : SmtArr) (addrBV srcBV : SmtBV) : Nat → SmtArr
  | 0 => mem
  | Nat.succ m =>
    (stmChainSpec mem addrBV srcBV m).store
      (addrBV.bvadd (Constant addrBV.size (m : Int))) (EXTRACT srcBV (8 * (m : Int)) 8)

/-- The bit range `[lo, hi]` equated by a preservation constraint (read off
the left-hand extract). -/
def constrRange : SmtConstr → Option (Int × Int)
  | .eqc (.extract _ hi lo _) _ => some (lo, hi)
  | _ => none

/-- Bit `i` is covered by one of the equated ranges of the constraint list. -/
def CoversBit (cs : List SmtConstr) (i : Int) : Prop :=
  ∃ c ∈ cs, ∃ lo hi, constrRange c = some (lo, hi) ∧ lo ≤ i ∧ i ≤ hi

/-- Claim C1 as stated, about the constraint list emitted for a sub-register
destination `(base, offset, sub_width)` of base width `W`: every bit outside
`[offset, offset + sub_width)` is equated (and only such bits), with a
two-range constraint exactly when `0 < offset < W - sub_width` and a
single-range constraint when the written range touches either end. -/
def ClaimC1 (W off sz : Int) (cs : List SmtConstr) : Prop :=
  (∀ i : Int, 0 ≤ i → i < W → ((i < off ∨ off + sz ≤ i) ↔ CoversBit cs i)) ∧
  (cs.length = 2 ↔ (0 < off ∧ off < W - sz)) ∧
  ((off = 0 ∨ off + sz = W) → cs.length = 1)

/- ------------------------------------------------------------------ -/
/- String-level expression layer (smtlibv2.py)                         -/
/- ------------------------------------------------------------------ -/

/-- `smtlibv2.BitVec`: a width plus the serialized S-expression value.
`Symbol.__init__` renders `(op child1 child2 …)` eagerly, so the value
string is the whole state of an expression. -/
structure SBitVec : Type where
  size : Int
  value : String
deriving DecidableEq, Repr

/-- `smtlibv2.Bool`: a serialized boolean expression. -/
structure SBool : Type where
  value : String
deriving DecidableEq, Repr

/-- Hexadecimal digits of a natural number (Python `%x`, lowercase). -/
def hexStr (n : Nat) : String := String.mk (Nat.toDigits 16 n)

/-- Left-pad with zeros to a minimum width (Python `%0*x`). -/
def padZeros (s : String) (w : Nat) : String :=
  if s.length < w then String.mk (List.replicate (w - s.length) '0') ++ s else s

/-- `BitVec.cast` applied to a Python integer (smtlibv2.py, lines 102-106):
width 1 renders as `#b0`/`#b1` (`'#' + bin(val & 1)[1:]`), otherwise a
hexadecimal literal of `size/4` digits of the masked value. -/
def bvLiteral (size val : Int) : String :=
  if size = 1 then (if val % 2 = 1 then "#b1" else "#b0")
  else "#x" ++ padZeros (hexStr (val % (2 : Int) ^ size.toNat).toNat) (size.toNat / 4)

/-- `BitVec.cast` applied to another `BitVec` (smtlibv2.py, line 113):
asserts the widths agree and returns it unchanged. -/
def SBitVec.cast (a val : SBitVec) : Except String SBitVec :=
  if val.size = a.size then .ok val else .error "cast: assert val.size == self.size"

/-- `BitVec.__mod__` (smtlibv2.py, lines 139-140):
`BitVec(self.size, 'bvsmod', self, self.cast(other))`, serializing with the
left operand first. -/
def SBitVec.modOverload (a b : SBitVec) : Except String SBitVec :=
  (a.cast b).map fun b' => ⟨a.size, "(bvsmod " ++ a.value ++ " " ++ b'.value ++ ")"⟩

/-- `BitVec.smod` (smtlibv2.py, lines 265-266):
`BitVec(self.size, 'bvsmod', self.cast(other), self)` — note the cast operand
comes first. -/
def SBitVec.smod (a b : SBitVec) : Except String SBitVec :=
  (a.cast b).map fun b' => ⟨a.size, "(bvsmod " ++ b'.value ++ " " ++ a.value ++ ")"⟩

/-- `BitVec.__eq__` against a Python integer: `Bool('=', self, self.cast(val))`. -/
def SBitVec.eqIntS (a : SBitVec) (v : Int) : SBool :=
  ⟨"(= " ++ a.value ++ " " ++ bvLiteral a.size v ++ ")"⟩

/-- `BitVec.__ne__` against a Python integer: `Bool('not', self == val)`. -/
def SBitVec.neIntS (a : SBitVec) (v : Int) : SBool :=
  ⟨"(not " ++ (a.eqIntS v).value ++ ")"⟩

/- ------------------------------------------------------------------ -/
/- Solver supervisor (Z3Solver)                                        -/
/- ------------------------------------------------------------------ -/

/-- A declared solver symbol (`BitVec`, `Array` or `Bool` object held in
`Z3Solver._declarations`). -/
inductive ZSym : Type where
  | bvSym (size : Int) (name : String)
  | arrSym (size : Int) (name : String)
  | boolSym (name : String)
deriving DecidableEq, Repr

/-- The symbol's `declaration` property. -/
def ZSym.declaration : ZSym → String
  | .bvSym size name => "(declare-fun " ++ name ++ " () (_ BitVec " ++ toString size ++ "))"
  | .arrSym size name =>
    "(declare-fun " ++ name ++ " () (Array (_ BitVec " ++ toString size ++ ") (_ BitVec 8)))"
  | .boolSym name => "(declare-fun " ++ name ++ " () Bool)"

/-- `Z3Solver` state: cached check status (as the literal string the solver
answered, `"unknown"` initially), the anonymous-symbol counter `_sid`, the
push/pop stack of `(sid, declarations, constraints)` snapshots, the
declaration map, the ordered constraint list with optional comments, and the
log of lines sent to the solver subprocess.  (The `None` status that only
arises from unpickling, and the protocol reader, are outside the modelled
flows.) -/
structure ZState : Type where
  status : String
  sid : Nat
  stack : List (Nat × List (String × ZSym) × List (SBool × Option String))
  decls : List (String × ZSym)
  constraints : List (SBool × Option String)
  sent : List String
deriving DecidableEq, Repr

/-- The external solver process, modelled as deterministic response functions
of the currently asserted constraints: the `(check-sat)` answer and the
value parsed from a `(get-value …)` reply. -/
structure ZOracle : Type where
  checkFn : List (SBool × Option String) → String
  valueFn : List (SBool × Option String) → Int

/-- `Z3Solver._send`: append a line to the subprocess log. -/
def zsend (st : ZState) (cmd : String) : ZState :=
  { st with sent := st.sent ++ [cmd] }

/-- `Z3Solver.check` (smtlibv2.py, lines 584-591): issue `(check-sat)` and
cache the answer only when the cached status is `"unknown"`. -/
def zcheck (oracle : ZOracle) (st : ZState) : String × ZState :=
  if st.status = "unknown" then
    let st1 := zsend st "(check-sat)"
    let r := oracle.checkFn st1.constraints
    (r, { st1 with status := r })
  else (st.status, st)

/-- The argument of `Z3Solver.add`: a native Python boolean or a symbolic
`Bool` constraint. -/
inductive ZAddArg : Type where
  | pybool (b : Bool)
  | sym (c : SBool)
deriving DecidableEq, Repr

/-- `Z3Solver.add` (smtlibv2.py, lines 681-695): a native `False` only sets
the cached status to `"unsat"`; a native `True` is a no-op; a symbolic
constraint is sent as an `(assert …)` line (with the optional comment),
appended to the constraint list, and invalidates the cached status. -/
def zadd (st : ZState) (arg : ZAddArg) (comment : Option String) : ZState :=
  match arg with
  | .pybool b => if b then st else { st with status := "unsat" }
  | .sym c =>
    let line :=
      match comment with
      | some m => "(assert " ++ c.value ++ ") ; " ++ m
      | none => "(assert " ++ c.value ++ ")"
    { zsend st line with constraints := st.constraints ++ [(c, comment)], status := "unknown" }

/-- `Z3Solver.push` (smtlibv2.py, lines 569-576): send `(push 1)` and snapshot
`(sid, declarations, constraints)`; the live copies are then mutated while
the snapshot stays intact (`copy.copy`). -/
def zpush (st : ZState) : ZState :=
  let st1 := zsend st "(push 1)"
  { st1 with stack := (st1.sid, st1.decls, st1.constraints) :: st1.stack }

/-- `Z3Solver.pop` (smtlibv2.py, lines 578-582): send `(pop 1)`, restore the
most recent snapshot, and invalidate the cached status.  (Popping an empty
stack raises `IndexError` in Python; the modelled flows never do.) -/
def zpop (st : ZState) : ZState :=
  let st1 := zsend st "(pop 1)"
  match st1.stack with
  | [] => st1
  | (sid, decls, constraints) :: rest =>
    { st1 with sid := sid, decls := decls, constraints := constraints,
               stack := rest, status := "unknown" }

/-- `Z3Solver.mkBitVec` (smtlibv2.py, lines 626-638): assert the width; when
the name is already declared return the cached symbol unchanged, otherwise
declare and cache a fresh bitvector. -/
def zmkBitVec (st : ZState) (size : Int) (name : String) :
    Except String (ZSym × ZState) :=
  if size ∈ bvSizes then
    match lookupA st.decls name with
    | some s => .ok (s, st)
    | none =>
      let bv := ZSym.bvSym size name
      .ok (bv, { zsend st bv.declaration with decls := (name, bv) :: st.decls })
  else .error "mkBitVec: assert size"

/-- Array index widths accepted by `Z3Solver.mkArray`. -/
def zArraySizes : List Int := [8, 16, 32, 64]

/-- `Z3Solver.mkArray` (smtlibv2.py, lines 640-652): as `mkBitVec` for array
symbols. -/
def zmkArray (st : ZState) (size : Int) (name : String) :
    Except String (ZSym × ZState) :=
  if size ∈ zArraySizes then
    match lookupA st.decls name with
    | some s => .ok (s, st)
    | none =>
      let arr := ZSym.arrSym size name
      .ok (arr, { zsend st arr.declaration with decls := (name, arr) :: st.decls })
  else .error "mkArray: assert size"

/-- `Z3Solver.mkBool` (smtlibv2.py, lines 662-672): when the name is already
declared, rename it to `name_sid` with a freshly incremented id and declare a
NEW symbol — it does not return the cached one. -/
def zmkBool (st : ZState) (name : String) : ZSym × ZState :=
  match lookupA st.decls name with
  | some _ =>
    let sid' := st.sid + 1
    let name' := name ++ "_" ++ toString sid'
    let b := ZSym.boolSym name'
    (b, { zsend { st with sid := sid' } b.declaration with decls := (name', b) :: st.decls })
  | none =>
    let b := ZSym.boolSym name
    (b, { zsend st b.declaration with decls := (name, b) :: st.decls })

/-- `aux == x` for a declared symbol `aux` and a `BitVec` `x`
(`BitVec.__eq__` with its `cast` width check; comparing a `Bool` or `Array`
symbol with a bitvector raises in Python). -/
def zsymEq (aux : ZSym) (x : SBitVec) : Except String SBool :=
  match aux with
  | .bvSym size name =>
    if x.size = size then .ok ⟨"(= " ++ name ++ " " ++ x.value ++ ")"⟩
    else .error "cast: assert val.size == self.size"
  | _ => .error "TypeError: expected BitVec"

/-- The symbol's name, as serialized by `str(val)` in a `(get-value …)`
query. -/
def ZSym.symName : ZSym → String
  | .bvSym _ n => n
  | .arrSym _ n => n
  | .boolSym n => n

/-- `Z3Solver.getvalue` (smtlibv2.py, lines 593-608) for a symbolic `aux`:
assert the state is satisfiable, send `(get-value (aux))` and parse the
solver's reply (the oracle's `valueFn`). -/
def zgetvalue (oracle : ZOracle) (st : ZState) (aux : ZSym) :
    Except String Int × ZState :=
  if (zcheck oracle st).1 = "sat" then
    (.ok (oracle.valueFn
        (zsend (zcheck oracle st).2 ("(get-value (" ++ aux.symName ++ "))")).constraints),
      zsend (zcheck oracle st).2 ("(get-value (" ++ aux.symName ++ "))"))
  else (.error "assert check == sat", (zcheck oracle st).2)

/-- The `while r != 'unsat'` loop of `Z3Solver.getallvalues` (smtlibv2.py,
lines 556-562): read a model value of `aux`, record it, exclude it with
`x != val`, re-check, and raise once more than `maxcnt` answers have been
collected.  Termination: each iteration grows the answer list, and the
raise fires as soon as its length exceeds `maxcnt`. -/
def gavLoop (oracle : ZOracle) (x : SBitVec) (aux : ZSym) (maxcnt : Int)
    (r : String) (st : ZState) (acc : List Int) :
    Except String (List Int) × ZState :=
  if r = "unsat" then (.ok acc, st)
  else
    match zgetvalue oracle st aux with
    | (.error e, st1) => (.error e, st1)
    | (.ok val, st1) =>
      if (((acc ++ [val]).length : Nat) : Int) > maxcnt then
        (.error "Max number of different solutions hit",
          (zcheck oracle (zadd st1 (.sym (x.neIntS val)) none)).2)
      else
        gavLoop oracle x aux maxcnt
          (zcheck oracle (zadd st1 (.sym (x.neIntS val)) none)).1
          (zcheck oracle (zadd st1 (.sym (x.neIntS val)) none)).2
          (acc ++ [val])
termination_by (maxcnt + 1 - acc.length).toNat
decreasing_by
  simp only [List.length_append, List.length_cons, List.length_nil] at *
  omega

/-- The body of `getallvalues` that runs inside `try … finally: self.pop()`:
declare the auxiliary symbol `V`, tie it to `x`, check, and run the
collection loop. -/
def gavBody (oracle : ZOracle) (st : ZState) (x : SBitVec) (maxcnt : Int) :
    Except String (List Int) × ZState :=
  match zmkBitVec st x.size "V" with
  | .error e => (.error e, st)
  | .ok (aux, st1) =>
    match zsymEq aux x with
    | .error e => (.error e, st1)
    | .ok c =>
      gavLoop oracle x aux maxcnt
        (zcheck oracle (zadd st1 (.sym c) none)).1
        (zcheck oracle (zadd st1 (.sym c) none)).2 []

/-- `Z3Solver.getallvalues` (smtlibv2.py, lines 546-567): assert the current
state is satisfiable, push one scope, collect values inside `try`, and pop
the scope in `finally` on both the normal and the raising path. -/
def getallvalues (oracle : ZOracle) (st : ZState) (x : SBitVec) (maxcnt : Int) :
    Except String (List Int) × ZState :=
  if (zcheck oracle st).1 ≠ "sat" then (.error "assert check == sat", (zcheck oracle st).2)
  else
    ((gavBody oracle (zpush (zcheck oracle st).2) x maxcnt).1,
      zpop (gavBody oracle (zpush (zcheck oracle st).2) x maxcnt).2)

/-- A state transition that leaves the push/pop stack untouched and only
appends to the subprocess log — the shape of every solver interaction between
a `push` and its matching `pop`. -/
def SolverFrame (st st' : ZState) : Prop :=
  st'.stack = st.stack ∧ ∃ l, st'.sent = st.sent ++ l

/- ------------------------------------------------------------------ -/
/- Concrete states and oracles used at specific inputs                 -/
/- ------------------------------------------------------------------ -/

/-- A freshly constructed solver state. -/
def zInit : ZState := ⟨"unknown", 0, [], [], [], []⟩

/-- A solver state whose last check answered sat. -/
def zSatState : ZState := ⟨"sat", 0, [], [], [], []⟩

/-- An oracle whose solver always answers sat, producing a fresh value each
time (the number of asserted constraints). -/
def oracleAlwaysSat : ZOracle := ⟨fun _ => "sat", fun cs => cs.length⟩

/-- A translator state with no register aliases. -/
def trPlainState : TrState := ⟨32, [], [], [], [], 0, .base 32 "MEM_0"⟩

/-- A translator state with a sub-register `hx` covering the upper half
`[16, 32)` of a 32-bit base `bx` — a write to it touches the top end of the
base register. -/
def trC1State : TrState := ⟨32, [("hx", ("bx", 16))], [("bx", 32)], [], [], 0, .base 32 "MEM_0"⟩

/-- A translator state with the x86-style alias `ah = eax[8:16]`. -/
def trAliasState : TrState := ⟨32, [("ah", ("eax", 8))], [("eax", 32)], [], [], 0, .base 32 "MEM_0"⟩

/-- A flag-condition evaluator that emits nothing and returns the 1-bit
temporary `t9`. -/
def evalCondConst : TBState → ReilOperand × TBState := fun s => (.reg "t9" 1, s)

/-- A solver state that already has a Bool declared under the name `B`. -/
def zWithB : ZState := ⟨"unknown", 0, [], [("B", .boolSym "B")], [], []⟩

/- ------------------------------------------------------------------ -/
/- Helper lemmas                                                       -/
/- ------------------------------------------------------------------ -/

theorem bvSizes_pos : ∀ x ∈ bvSizes, (1 : Int) ≤ x := by decide

theorem ZEXTEND_of_lt (x : SmtBV) (size : Int) (h : x.size < size) :
    ZEXTEND x size = .ok (.zeroext size (size - x.size) x) := by
  unfold ZEXTEND
  rw [if_neg (by omega), if_neg (by omega)]

theorem translate_dst_plain (st : TrState) (r : String) (w3 : Int)
    (hw3 : w3 ∈ bvSizes) (halias : lookupA st.aliasMapper r = none)
    (hdecl : lookupA st.decls
      (r ++ "_" ++ toString ((lookupA st.versions r).getD 0 + 1)) = none) :
    translate_dst_oprnd st (.reg r w3) =
      .ok (.var w3 (r ++ "_" ++ toString ((lookupA st.versions r).getD 0 + 1)), [],
        { st with
            versions := (r, (lookupA st.versions r).getD 0 + 1) :: st.versions,
            decls := (r ++ "_" ++ toString ((lookupA st.versions r).getD 0 + 1),
              .bvSym (.var w3 (r ++ "_" ++ toString ((lookupA st.versions r).getD 0 + 1)))) ::
                st.decls }) := by
  simp [translate_dst_oprnd, translate_dst_register_oprnd, halias, getVarName,
    make_bitvec, hw3, hdecl, SmtSym.asBV, Except.bind]

theorem bind_error_or {α β : Type} (x : Except String α) (f : α → Except String β)
    (h : ∀ a, ∃ e, f a = .error e) : ∃ e, x.bind f = .error e := by
  cases x with
  | error e => exact ⟨e, rfl⟩
  | ok a => simpa [Except.bind] using h a

/- ------------------------------------------------------------------ -/
/- Claim C3                                                            -/
/- ------------------------------------------------------------------ -/

/-- C3: every jump-target operand produced by `_translate_address` has width
`source width + 8` and carries the effective address shifted left by 8: an
immediate source becomes the immediate `value * 256` (whose low 8 bits are
zero) with no emitted code, and a register source emits a copy into a fresh
`size + 8`-wide temporary followed by a left barrel-shift by the constant 8
into a second such temporary, which is the returned target operand. -/
theorem C3_jump_target_encoding (v size : Int) (name : String) (st : TBState) :
    (translate_address (.imm v size) st = .ok (.imm (v * 256) (size + 8), st) ∧
      (v * 256) % 256 = 0) ∧
    translate_address (.reg name size) st =
      .ok (.reg ("t" ++ toString (st.nextTemp + 1)) (size + 8),
        { nextTemp := st.nextTemp + 2,
          items := st.items ++
            [.ins (gen_str (.reg name size) (.reg ("t" ++ toString st.nextTemp) (size + 8))),
             .ins (gen_bsh (.reg ("t" ++ toString st.nextTemp) (size + 8))
               (.imm 8 (size + 8)) (.reg ("t" ++ toString (st.nextTemp + 1)) (size + 8)))] }) := by
  refine ⟨⟨rfl, Int.mul_emod_left v 256⟩, ?_⟩
  simp [translate_address, TBState.temporal, TBState.addI]

/- ------------------------------------------------------------------ -/
/- Claim C10                                                           -/
/- ------------------------------------------------------------------ -/

/-- C10: `add` called with a native Python boolean sends nothing and appends
nothing: `add(True)` leaves the whole solver state unchanged, `add(False)`
only sets the cached status to `"unsat"`, and a subsequent `check()` then
returns `"unsat"` without touching the solver (no `(check-sat)` sent, state
unchanged). -/
theorem C10_add_native_bool (oracle : ZOracle) (st : ZState) (comment : Option String) :
    zadd st (.pybool true) comment = st ∧
    zadd st (.pybool false) comment = { st with status := "unsat" } ∧
    (zcheck oracle (zadd st (.pybool false) comment)).1 = "unsat" ∧
    (zcheck oracle (zadd st (.pybool false) comment)).2 = { st with status := "unsat" } := by
  have h : ¬(("unsat" : String) = "unknown") := by decide
  exact ⟨rfl, rfl, by simp [zadd, zcheck, h], by simp [zadd, zcheck, h]⟩

/- ------------------------------------------------------------------ -/
/- Claim C6                                                            -/
/- ------------------------------------------------------------------ -/

/-- C6 counterexample: the named method `a.smod(b)` serializes with the
operands REVERSED — `(bvsmod b a)` — contradicting the claim that it
serializes with `a` first. -/
theorem C6_smod_reversed_counterexample :
    SBitVec.smod ⟨32, "a"⟩ ⟨32, "b"⟩ = .ok ⟨32, "(bvsmod b a)"⟩ ∧
    SBitVec.smod ⟨32, "a"⟩ ⟨32, "b"⟩ ≠ .ok ⟨32, "(bvsmod a b)"⟩ := by
  refine ⟨rfl, fun h => ?_⟩
  rw [show SBitVec.smod ⟨32, "a"⟩ ⟨32, "b"⟩ = .ok ⟨32, "(bvsmod b a)"⟩ from rfl] at h
  exact absurd (Except.ok.inj h) (by decide)

/-- C6 amended: for equal-width bitvectors, the overloaded operator `a % b`
serializes to `(bvsmod a b)` with `a` first, while the named method
`a.smod(b)` serializes with the operands reversed, `(bvsmod b a)`; the SMOD
IR translation uses the overloaded operator and therefore asserts
`dst = (bvsmod src1 src2)` in operand order. -/
theorem C6_mod_operand_order (a b : SBitVec) (hsz : b.size = a.size)
    (st : TrState) (v1 v2 w : Int) (r : String)
    (hw : w ≠ 0) (hwbv : w ∈ bvSizes)
    (halias : lookupA st.aliasMapper r = none)
    (hdecl : lookupA st.decls
      (r ++ "_" ++ toString ((lookupA st.versions r).getD 0 + 1)) = none) :
    a.modOverload b = .ok ⟨a.size, "(bvsmod " ++ a.value ++ " " ++ b.value ++ ")"⟩ ∧
    a.smod b = .ok ⟨a.size, "(bvsmod " ++ b.value ++ " " ++ a.value ++ ")"⟩ ∧
    ∃ st', translate_smod st (.imm v1 w) (.imm v2 w) (.reg r w) =
      .ok ([SmtConstr.eqc
        (.var w (r ++ "_" ++ toString ((lookupA st.versions r).getD 0 + 1)))
        (.binop w "bvsmod" (Constant w v1) (Constant w v2))], st') := by
  refine ⟨?_, ?_, ?_⟩
  · simp [SBitVec.modOverload, SBitVec.cast, hsz, Except.map]
  · simp [SBitVec.smod, SBitVec.cast, hsz, Except.map]
  · refine ⟨{ st with
        versions := (r, (lookupA st.versions r).getD 0 + 1) :: st.versions,
        decls := (r ++ "_" ++ toString ((lookupA st.versions r).getD 0 + 1),
          .bvSym (.var w (r ++ "_" ++ toString ((lookupA st.versions r).getD 0 + 1)))) ::
            st.decls }, ?_⟩
    simp only [translate_smod, ReilOperand.size]
    rw [if_neg (by simp [hw]), if_neg (by simp), if_neg (by simp)]
    rw [show translate_src_oprnd st (.imm v1 w) = .ok (Constant w v1, st) from rfl]
    simp only [Except.bind]
    rw [show translate_src_oprnd st (.imm v2 w) = .ok (Constant w v2, st) from rfl]
    simp only [Except.bind]
    rw [translate_dst_plain st r w hwbv halias hdecl]
    simp [Except.map, SmtBV.modOp, SmtBV.size, Constant]

/- ------------------------------------------------------------------ -/
/- Claim C5                                                            -/
/- ------------------------------------------------------------------ -/

/-- C5 counterexample: a MOD instruction with source widths 8 and destination
width 16 (so `w2 ≠ w3`) translates successfully instead of raising, asserting
`t0_1 = (bvurem ((_ zero_extend 8) a) ((_ zero_extend 8) b))`. -/
theorem C5_mod_width_mismatch_translates :
    translate_mod trPlainState (.imm 1 8) (.imm 1 8) (.reg "t0" 16) =
      .ok ([SmtConstr.eqc (.var 16 "t0_1")
        (.binop 16 "bvurem" (.zeroext 16 8 (Constant 8 1))
          (.zeroext 16 8 (Constant 8 1)))],
        { trPlainState with
            versions := [("t0", 1)],
            decls := [("t0_1", .bvSym (.var 16 "t0_1"))] }) := by
  rfl

/-- C5 amended: DIV, SDIV and SMOD require `w1 = w2 = w3` and fail whenever
`w2 ≠ w3`; MOD fails only when the destination is narrower than the sources
(`w3 < w1`): when `w3 = w1` it asserts `dst = (bvurem a b)` directly, and
when `w3 > w1` it zero-extends both sources to `w3` and asserts
`dst = (bvurem zx(a) zx(b))` instead of raising. -/
theorem C5_division_width_requirements
    (st : TrState) (a b w1 w3 : Int) (r : String)
    (h1 : w1 ≠ 0) (h3 : w3 ≠ 0) (hw3 : w3 ∈ bvSizes)
    (halias : lookupA st.aliasMapper r = none)
    (hdecl : lookupA st.decls
      (r ++ "_" ++ toString ((lookupA st.versions r).getD 0 + 1)) = none) :
    (∀ st0 o1 o2 o3, o2.size ≠ o3.size →
      (∃ e, translate_div st0 o1 o2 o3 = .error e) ∧
      (∃ e, translate_sdiv st0 o1 o2 o3 = .error e) ∧
      (∃ e, translate_smod st0 o1 o2 o3 = .error e)) ∧
    (∀ st0 o1 o2 o3, o3.size < o1.size →
      ∃ e, translate_mod st0 o1 o2 o3 = .error e) ∧
    ∃ st',
      (w3 = w1 →
        translate_mod st (.imm a w1) (.imm b w1) (.reg r w3) =
          .ok ([.eqc (.var w3 (r ++ "_" ++ toString ((lookupA st.versions r).getD 0 + 1)))
            (.binop w1 "bvurem" (Constant w1 a) (Constant w1 b))], st')) ∧
      (w3 > w1 →
        translate_mod st (.imm a w1) (.imm b w1) (.reg r w3) =
          .ok ([.eqc (.var w3 (r ++ "_" ++ toString ((lookupA st.versions r).getD 0 + 1)))
            (.binop w3 "bvurem" (.zeroext w3 (w3 - w1) (Constant w1 a))
              (.zeroext w3 (w3 - w1) (Constant w1 b)))], st')) := by
  refine ⟨?_, ?_, ?_⟩
  · intro st0 o1 o2 o3 hne
    refine ⟨?_, ?_, ?_⟩
    · unfold translate_div
      by_cases hz : o1.size = 0 ∨ o2.size = 0 ∨ o3.size = 0
      · rw [if_pos hz]
        exact ⟨_, rfl⟩
      · rw [if_neg hz]
        by_cases h12 : o1.size ≠ o2.size
        · rw [if_pos h12]
          exact ⟨_, rfl⟩
        · rw [if_neg h12, if_pos hne]
          exact ⟨_, rfl⟩
    · unfold translate_sdiv
      by_cases hz : o1.size = 0 ∨ o2.size = 0 ∨ o3.size = 0
      · rw [if_pos hz]
        exact ⟨_, rfl⟩
      · rw [if_neg hz]
        by_cases h12 : o1.size ≠ o2.size
        · rw [if_pos h12]
          exact ⟨_, rfl⟩
        · rw [if_neg h12, if_pos hne]
          exact ⟨_, rfl⟩
    · unfold translate_smod
      by_cases hz : o1.size = 0 ∨ o2.size = 0 ∨ o3.size = 0
      · rw [if_pos hz]
        exact ⟨_, rfl⟩
      · rw [if_neg hz]
        by_cases h12 : o1.size ≠ o2.size
        · rw [if_pos h12]
          exact ⟨_, rfl⟩
        · rw [if_neg h12, if_pos hne]
          exact ⟨_, rfl⟩
  · intro st0 o1 o2 o3 hlt
    unfold translate_mod
    by_cases hz : o1.size = 0 ∨ o2.size = 0 ∨ o3.size = 0
    · rw [if_pos hz]
      exact ⟨_, rfl⟩
    · rw [if_neg hz]
      by_cases h12 : o1.size ≠ o2.size
      · rw [if_pos h12]
        exact ⟨_, rfl⟩
      · rw [if_neg h12]
        apply bind_error_or
        intro p1
        apply bind_error_or
        intro p2
        apply bind_error_or
        intro p3
        rw [if_neg (by omega), if_neg (by omega)]
        exact ⟨_, rfl⟩
  · refine ⟨{ st with
        versions := (r, (lookupA st.versions r).getD 0 + 1) :: st.versions,
        decls := (r ++ "_" ++ toString ((lookupA st.versions r).getD 0 + 1),
          .bvSym (.var w3 (r ++ "_" ++ toString ((lookupA st.versions r).getD 0 + 1)))) ::
            st.decls }, ?_, ?_⟩
    · intro heq
      simp only [translate_mod, ReilOperand.size]
      rw [if_neg (by simp [h1, h3]), if_neg (by simp)]
      rw [show translate_src_oprnd st (.imm a w1) = .ok (Constant w1 a, st) from rfl]
      simp only [Except.bind]
      rw [show translate_src_oprnd st (.imm b w1) = .ok (Constant w1 b, st) from rfl]
      simp only [Except.bind]
      rw [translate_dst_plain st r w3 hw3 halias hdecl]
      simp only [Except.bind]
      rw [if_pos heq.symm]
      rfl
    · intro hgt
      simp only [translate_mod, ReilOperand.size]
      rw [if_neg (by simp [h1, h3]), if_neg (by simp)]
      rw [show translate_src_oprnd st (.imm a w1) = .ok (Constant w1 a, st) from rfl]
      simp only [Except.bind]
      rw [show translate_src_oprnd st (.imm b w1) = .ok (Constant w1 b, st) from rfl]
      simp only [Except.bind]
      rw [translate_dst_plain st r w3 hw3 halias hdecl]
      simp only [Except.bind]
      rw [if_neg (by omega), if_pos hgt,
        ZEXTEND_of_lt (Constant w1 a) w3 (by simpa [Constant, SmtBV.size] using hgt),
        ZEXTEND_of_lt (Constant w1 b) w3 (by simpa [Constant, SmtBV.size] using hgt)]
      rfl

/-- C5 witness: the amended requirements at concrete instances with
`w1 = w2 = 8` and `w3 = 16`: DIV, SDIV and SMOD raise on any `w2 ≠ w3`
mismatch, MOD raises only for a narrower destination, and a concrete
widening MOD zero-extends both sources and succeeds. -/
theorem C5_division_width_requirements_witness :
    (∀ st0 o1 o2 o3, ReilOperand.size o2 ≠ ReilOperand.size o3 →
      (∃ e, translate_div st0 o1 o2 o3 = .error e) ∧
      (∃ e, translate_sdiv st0 o1 o2 o3 = .error e) ∧
      (∃ e, translate_smod st0 o1 o2 o3 = .error e)) ∧
    (∀ st0 o1 o2 o3, ReilOperand.size o3 < ReilOperand.size o1 →
      ∃ e, translate_mod st0 o1 o2 o3 = .error e) ∧
    ∃ st',
      ((16 : Int) = 8 →
        translate_mod trPlainState (.imm 9 8) (.imm 4 8) (.reg "t3" 16) =
          .ok ([.eqc (.var 16 "t3_1")
            (.binop 8 "bvurem" (Constant 8 9) (Constant 8 4))], st')) ∧
      ((16 : Int) > 8 →
        translate_mod trPlainState (.imm 9 8) (.imm 4 8) (.reg "t3" 16) =
          .ok ([.eqc (.var 16 "t3_1")
            (.binop 16 "bvurem" (.zeroext 16 8 (Constant 8 9))
              (.zeroext 16 8 (Constant 8 4)))], st')) :=
  C5_division_width_requirements trPlainState 9 4 8 16 "t3"
    (by decide) (by decide) (by decide) rfl rfl

/-- C6 witness: the operand-order facts at concrete 32-bit expressions and a
concrete SMOD instruction. -/
theorem C6_mod_operand_order_witness :
    SBitVec.modOverload ⟨32, "a"⟩ ⟨32, "b"⟩ = .ok ⟨32, "(bvsmod a b)"⟩ ∧
    SBitVec.smod ⟨32, "a"⟩ ⟨32, "b"⟩ = .ok ⟨32, "(bvsmod b a)"⟩ ∧
    ∃ st', translate_smod trPlainState (.imm 7 32) (.imm 5 32) (.reg "t1" 32) =
      .ok ([SmtConstr.eqc (.var 32 "t1_1")
        (.binop 32 "bvsmod" (Constant 32 7) (Constant 32 5))], st') :=
  C6_mod_operand_order ⟨32, "a"⟩ ⟨32, "b"⟩ rfl trPlainState 7 5 32 "t1"
    (by decide) (by decide) rfl rfl

/- ------------------------------------------------------------------ -/
/- Claim C2                                                            -/
/- ------------------------------------------------------------------ -/

theorem noJcc_no_fallthrough (e : Int) (it : TBItem) (h : isJccItem it = false) :
    isFallthroughJcc e it = false := by
  cases it with
  | mark l => rfl
  | ins i =>
    obtain ⟨mn, a, b, c⟩ := i
    cases mn <;> simp_all [isJccItem, isFallthroughJcc]

/-- C2 counterexample: the lifted IR of a concrete `loop` instruction (target
`0x8048010`, at address `0x8048000`, size 2) contains NO unconditional
fall-through jump to the following instruction — contradicting the claim that
every conditional control transfer (including `loop`) gets one. -/
theorem C2_loop_no_fallthrough_counterexample :
    ∃ st', translate_loop .mode32 (.imm 134512656 32) ⟨0, []⟩ = .ok st' ∧
      hasFallthrough st'.items 134512642 = false :=
  ⟨_, rfl, rfl⟩

/-- C2 amended: only `loope`/`loopne` (and their `loopz`/`loopnz` aliases)
emit the unconditional fall-through jump — a `JCC` on the constant 1 to
`(address + size) << 8`; the conditional jumps `jcc` and `loop` end with the
conditional `JCC` alone, with no explicit fall-through jump. -/
theorem C2_fallthrough_only_loope_loopne
    (mode : X86Mode) (archAddrSize : Int) (oprnd0 : ReilOperand)
    (insAddr insSize : Int)
    (evalCond : TBState → ReilOperand × TBState)
    (hop : (∃ v s, oprnd0 = .imm v s) ∨ (∃ n s, oprnd0 = .reg n s))
    (hcond : ∀ s, (∃ n w, (evalCond s).1 = .reg n w) ∧
      ∃ extra, (evalCond s).2.items = s.items ++ extra ∧ ∀ it ∈ extra, isJccItem it = false) :
    (∀ st1, translate_loopne mode archAddrSize oprnd0 insAddr insSize ⟨0, []⟩ = .ok st1 →
      hasFallthrough st1.items (insAddr + insSize) = true) ∧
    (∀ st1, translate_loope mode archAddrSize oprnd0 insAddr insSize ⟨0, []⟩ = .ok st1 →
      hasFallthrough st1.items (insAddr + insSize) = true) ∧
    (∀ st1, translate_loop mode oprnd0 ⟨0, []⟩ = .ok st1 →
      hasFallthrough st1.items (insAddr + insSize) = false) ∧
    (∀ st1, translate_jcc evalCond oprnd0 ⟨0, []⟩ = .ok st1 →
      hasFallthrough st1.items (insAddr + insSize) = false) := by
  refine ⟨?_, ?_, ?_, ?_⟩
  · intro st1 h
    rcases hop with ⟨v, s, rfl⟩ | ⟨n, s, rfl⟩ <;> cases mode <;>
      · simp only [translate_loopne, translate_address, counterReg, TBState.temporal,
          TBState.addI, TBState.addMark, Except.bind] at h
        cases h
        simp [hasFallthrough, isFallthroughJcc, List.any_append, gen_str, gen_sub,
          gen_bisz, gen_xor, gen_and, gen_jcc, gen_bsh, zfReg]
  · intro st1 h
    rcases hop with ⟨v, s, rfl⟩ | ⟨n, s, rfl⟩ <;> cases mode <;>
      · simp only [translate_loope, translate_address, counterReg, TBState.temporal,
          TBState.addI, TBState.addMark, Except.bind] at h
        cases h
        simp [hasFallthrough, isFallthroughJcc, List.any_append, gen_str, gen_sub,
          gen_bisz, gen_xor, gen_and, gen_jcc, gen_bsh, zfReg]
  · intro st1 h
    rcases hop with ⟨v, s, rfl⟩ | ⟨n, s, rfl⟩ <;> cases mode <;>
      · simp only [translate_loop, translate_address, counterReg, TBState.temporal,
          TBState.addI, Except.bind] at h
        cases h
        simp [hasFallthrough, isFallthroughJcc, List.any_append, gen_str, gen_sub,
          gen_bisz, gen_xor, gen_and, gen_jcc, gen_bsh, zfReg]
  · intro st1 h
    rcases hop with ⟨v, s, rfl⟩ | ⟨n, s, rfl⟩
    · simp only [translate_jcc, translate_address, Except.bind] at h
      obtain ⟨⟨n1, w1, hc1⟩, extra, hextra, hnojcc⟩ := hcond ⟨0, []⟩
      cases h
      simp only [hasFallthrough, TBState.addI, List.any_append, List.any_cons,
        List.any_nil, hextra, hc1]
      rw [List.any_eq_false.mpr]
      · simp [isFallthroughJcc, gen_jcc]
      · intro it hit
        simp only [List.nil_append] at hit
        simp [noJcc_no_fallthrough _ it (hnojcc it hit)]
    · simp only [translate_jcc, translate_address, TBState.temporal, TBState.addI,
        Except.bind] at h
      obtain ⟨⟨n1, w1, hc1⟩, extra, hextra, hnojcc⟩ :=
        hcond ⟨0 + 1 + 1,
          [] ++ [.ins (gen_str (.reg n s) (.reg ("t" ++ toString 0) (s + 8)))] ++
            [.ins (gen_bsh (.reg ("t" ++ toString 0) (s + 8)) (.imm 8 (s + 8))
              (.reg ("t" ++ toString (0 + 1)) (s + 8)))]⟩
      cases h
      simp only [hasFallthrough, TBState.addI, List.any_append, List.any_cons,
        List.any_nil, hextra, hc1]
      rw [List.any_eq_false.mpr]
      · simp [isFallthroughJcc, gen_str, gen_bsh, gen_jcc]
      · intro it hit
        simp [noJcc_no_fallthrough _ it (hnojcc it hit)]

/-- C2 witness: the amended statement at a concrete `jcc`-style condition
evaluator, operand, mode and addresses. -/
theorem C2_fallthrough_only_loope_loopne_witness :
    (∀ st1, translate_loopne .mode32 32 (.imm 5 32) 100 2 ⟨0, []⟩ = .ok st1 →
      hasFallthrough st1.items (100 + 2) = true) ∧
    (∀ st1, translate_loope .mode32 32 (.imm 5 32) 100 2 ⟨0, []⟩ = .ok st1 →
      hasFallthrough st1.items (100 + 2) = true) ∧
    (∀ st1, translate_loop .mode32 (.imm 5 32) ⟨0, []⟩ = .ok st1 →
      hasFallthrough st1.items (100 + 2) = false) ∧
    (∀ st1, translate_jcc evalCondConst (.imm 5 32) ⟨0, []⟩ = .ok st1 →
      hasFallthrough st1.items (100 + 2) = false) :=
  C2_fallthrough_only_loope_loopne .mode32 32 (.imm 5 32) 100 2 evalCondConst
    (Or.inl ⟨5, 32, rfl⟩)
    (fun s => ⟨⟨"t9", 1, rfl⟩, [], by simp [evalCondConst], by simp⟩)

/- ------------------------------------------------------------------ -/
/- Claim C4                                                            -/
/- ------------------------------------------------------------------ -/

/-- C4: ADD, SUB and MUL require equal source widths — translation fails on a
mismatch — and assert that the destination variable equals: the operation
applied to both sources zero-extended to `w3` when `w3 > w1`; the low `w3`
bits of the result computed at width `w1` when `w3 < w1`; and the directly
computed `w1`-wide result when the widths agree. -/
theorem C4_arith_width_adjustment
    (st : TrState) (a b w1 w3 : Int) (r : String)
    (h1 : w1 ≠ 0) (h3 : w3 ≠ 0) (hw3 : w3 ∈ bvSizes)
    (halias : lookupA st.aliasMapper r = none)
    (hdecl : lookupA st.decls
      (r ++ "_" ++ toString ((lookupA st.versions r).getD 0 + 1)) = none) :
    (∀ st0 o1 o2 o3, o1.size ≠ o2.size →
      (∃ e, translate_add st0 o1 o2 o3 = .error e) ∧
      (∃ e, translate_sub st0 o1 o2 o3 = .error e) ∧
      (∃ e, translate_mul st0 o1 o2 o3 = .error e)) ∧
    ∃ st',
      (w3 > w1 →
        translate_add st (.imm a w1) (.imm b w1) (.reg r w3) =
          .ok ([.eqc (.var w3 (r ++ "_" ++ toString ((lookupA st.versions r).getD 0 + 1)))
            (.binop w3 "bvadd" (.zeroext w3 (w3 - w1) (Constant w1 a))
              (.zeroext w3 (w3 - w1) (Constant w1 b)))], st') ∧
        translate_sub st (.imm a w1) (.imm b w1) (.reg r w3) =
          .ok ([.eqc (.var w3 (r ++ "_" ++ toString ((lookupA st.versions r).getD 0 + 1)))
            (.binop w3 "bvsub" (.zeroext w3 (w3 - w1) (Constant w1 a))
              (.zeroext w3 (w3 - w1) (Constant w1 b)))], st') ∧
        translate_mul st (.imm a w1) (.imm b w1) (.reg r w3) =
          .ok ([.eqc (.var w3 (r ++ "_" ++ toString ((lookupA st.versions r).getD 0 + 1)))
            (.binop w3 "bvmul" (.zeroext w3 (w3 - w1) (Constant w1 a))
              (.zeroext w3 (w3 - w1) (Constant w1 b)))], st')) ∧
      (w3 < w1 →
        translate_add st (.imm a w1) (.imm b w1) (.reg r w3) =
          .ok ([.eqc (.var w3 (r ++ "_" ++ toString ((lookupA st.versions r).getD 0 + 1)))
            (.extract w3 (w3 - 1) 0 (.binop w1 "bvadd" (Constant w1 a) (Constant w1 b)))], st') ∧
        translate_sub st (.imm a w1) (.imm b w1) (.reg r w3) =
          .ok ([.eqc (.var w3 (r ++ "_" ++ toString ((lookupA st.versions r).getD 0 + 1)))
            (.extract w3 (w3 - 1) 0 (.binop w1 "bvsub" (Constant w1 a) (Constant w1 b)))], st') ∧
        translate_mul st (.imm a w1) (.imm b w1) (.reg r w3) =
          .ok ([.eqc (.var w3 (r ++ "_" ++ toString ((lookupA st.versions r).getD 0 + 1)))
            (.extract w3 (w3 - 1) 0 (.binop w1 "bvmul" (Constant w1 a) (Constant w1 b)))], st')) ∧
      (w3 = w1 →
        translate_add st (.imm a w1) (.imm b w1) (.reg r w3) =
          .ok ([.eqc (.var w3 (r ++ "_" ++ toString ((lookupA st.versions r).getD 0 + 1)))
            (.binop w1 "bvadd" (Constant w1 a) (Constant w1 b))], st') ∧
        translate_sub st (.imm a w1) (.imm b w1) (.reg r w3) =
          .ok ([.eqc (.var w3 (r ++ "_" ++ toString ((lookupA st.versions r).getD 0 + 1)))
            (.binop w1 "bvsub" (Constant w1 a) (Constant w1 b))], st') ∧
        translate_mul st (.imm a w1) (.imm b w1) (.reg r w3) =
          .ok ([.eqc (.var w3 (r ++ "_" ++ toString ((lookupA st.versions r).getD 0 + 1)))
            (.binop w1 "bvmul" (Constant w1 a) (Constant w1 b))], st')) := by
  constructor
  · intro st0 o1 o2 o3 hne
    refine ⟨?_, ?_, ?_⟩
    · unfold translate_add
      by_cases hz : o1.size = 0 ∨ o2.size = 0 ∨ o3.size = 0
      · rw [if_pos hz]
        exact ⟨_, rfl⟩
      · rw [if_neg hz, if_pos hne]
        exact ⟨_, rfl⟩
    · unfold translate_sub
      by_cases hz : o1.size = 0 ∨ o2.size = 0 ∨ o3.size = 0
      · rw [if_pos hz]
        exact ⟨_, rfl⟩
      · rw [if_neg hz, if_pos hne]
        exact ⟨_, rfl⟩
    · unfold translate_mul
      by_cases hz : o1.size = 0 ∨ o2.size = 0 ∨ o3.size = 0
      · rw [if_pos hz]
        exact ⟨_, rfl⟩
      · rw [if_neg hz, if_pos hne]
        exact ⟨_, rfl⟩
  · refine ⟨{ st with
        versions := (r, (lookupA st.versions r).getD 0 + 1) :: st.versions,
        decls := (r ++ "_" ++ toString ((lookupA st.versions r).getD 0 + 1),
          .bvSym (.var w3 (r ++ "_" ++ toString ((lookupA st.versions r).getD 0 + 1)))) ::
            st.decls }, ?_, ?_, ?_⟩
    · intro hgt
      refine ⟨?_, ?_, ?_⟩ <;>
      · simp only [translate_add, translate_sub, translate_mul, ReilOperand.size]
        rw [if_neg (by simp [h1, h3]), if_neg (by simp)]
        rw [show translate_src_oprnd st (.imm a w1) = .ok (Constant w1 a, st) from rfl]
        simp only [Except.bind]
        rw [show translate_src_oprnd st (.imm b w1) = .ok (Constant w1 b, st) from rfl]
        simp only [Except.bind]
        rw [translate_dst_plain st r w3 hw3 halias hdecl]
        simp only [Except.bind]
        rw [if_pos hgt,
          ZEXTEND_of_lt (Constant w1 a) w3 (by simpa [Constant, SmtBV.size] using hgt),
          ZEXTEND_of_lt (Constant w1 b) w3 (by simpa [Constant, SmtBV.size] using hgt)]
        rfl
    · intro hlt
      refine ⟨?_, ?_, ?_⟩ <;>
      · simp only [translate_add, translate_sub, translate_mul, ReilOperand.size]
        rw [if_neg (by simp [h1, h3]), if_neg (by simp)]
        rw [show translate_src_oprnd st (.imm a w1) = .ok (Constant w1 a, st) from rfl]
        simp only [Except.bind]
        rw [show translate_src_oprnd st (.imm b w1) = .ok (Constant w1 b, st) from rfl]
        simp only [Except.bind]
        rw [translate_dst_plain st r w3 hw3 halias hdecl]
        simp only [Except.bind]
        rw [if_neg (by omega), if_pos hlt]
        simp only [EXTRACT, SmtBV.bvadd, SmtBV.bvsub, SmtBV.bvmul, SmtBV.size, Constant]
        rw [if_neg (by omega)]
        norm_num
    · intro heq
      refine ⟨?_, ?_, ?_⟩ <;>
      · simp only [translate_add, translate_sub, translate_mul, ReilOperand.size]
        rw [if_neg (by simp [h1, h3]), if_neg (by simp)]
        rw [show translate_src_oprnd st (.imm a w1) = .ok (Constant w1 a, st) from rfl]
        simp only [Except.bind]
        rw [show translate_src_oprnd st (.imm b w1) = .ok (Constant w1 b, st) from rfl]
        simp only [Except.bind]
        rw [translate_dst_plain st r w3 hw3 halias hdecl]
        simp only [Except.bind]
        rw [if_neg (by omega), if_neg (by omega)]
        rfl

/-- C4 witness: the width-adjustment facts at a concrete widening ADD/SUB/MUL
(`w1 = 8`, `w3 = 16`). -/
theorem C4_arith_width_adjustment_witness :
    (∀ st0 o1 o2 o3, o1.size ≠ o2.size →
      (∃ e, translate_add st0 o1 o2 o3 = .error e) ∧
      (∃ e, translate_sub st0 o1 o2 o3 = .error e) ∧
      (∃ e, translate_mul st0 o1 o2 o3 = .error e)) ∧
    ∃ st',
      ((16 : Int) > 8 →
        translate_add trPlainState (.imm 3 8) (.imm 7 8) (.reg "t2" 16) =
          .ok ([.eqc (.var 16 "t2_1")
            (.binop 16 "bvadd" (.zeroext 16 8 (Constant 8 3))
              (.zeroext 16 8 (Constant 8 7)))], st') ∧
        translate_sub trPlainState (.imm 3 8) (.imm 7 8) (.reg "t2" 16) =
          .ok ([.eqc (.var 16 "t2_1")
            (.binop 16 "bvsub" (.zeroext 16 8 (Constant 8 3))
              (.zeroext 16 8 (Constant 8 7)))], st') ∧
        translate_mul trPlainState (.imm 3 8) (.imm 7 8) (.reg "t2" 16) =
          .ok ([.eqc (.var 16 "t2_1")
            (.binop 16 "bvmul" (.zeroext 16 8 (Constant 8 3))
              (.zeroext 16 8 (Constant 8 7)))], st')) ∧
      ((16 : Int) < 8 →
        translate_add trPlainState (.imm 3 8) (.imm 7 8) (.reg "t2" 16) =
          .ok ([.eqc (.var 16 "t2_1")
            (.extract 16 15 0 (.binop 8 "bvadd" (Constant 8 3) (Constant 8 7)))], st') ∧
        translate_sub trPlainState (.imm 3 8) (.imm 7 8) (.reg "t2" 16) =
          .ok ([.eqc (.var 16 "t2_1")
            (.extract 16 15 0 (.binop 8 "bvsub" (Constant 8 3) (Constant 8 7)))], st') ∧
        translate_mul trPlainState (.imm 3 8) (.imm 7 8) (.reg "t2" 16) =
          .ok ([.eqc (.var 16 "t2_1")
            (.extract 16 15 0 (.binop 8 "bvmul" (Constant 8 3) (Constant 8 7)))], st')) ∧
      ((16 : Int) = 8 →
        translate_add trPlainState (.imm 3 8) (.imm 7 8) (.reg "t2" 16) =
          .ok ([.eqc (.var 16 "t2_1")
            (.binop 8 "bvadd" (Constant 8 3) (Constant 8 7))], st') ∧
        translate_sub trPlainState (.imm 3 8) (.imm 7 8) (.reg "t2" 16) =
          .ok ([.eqc (.var 16 "t2_1")
            (.binop 8 "bvsub" (Constant 8 3) (Constant 8 7))], st') ∧
        translate_mul trPlainState (.imm 3 8) (.imm 7 8) (.reg "t2" 16) =
          .ok ([.eqc (.var 16 "t2_1")
            (.binop 8 "bvmul" (Constant 8 3) (Constant 8 7))], st')) :=
  C4_arith_width_adjustment trPlainState 3 7 8 16 "t2"
    (by decide) (by decide) (by decide) rfl rfl

/- ------------------------------------------------------------------ -/
/- Claim C7                                                            -/
/- ------------------------------------------------------------------ -/

theorem trArraySizes_nonzero : ∀ x ∈ trArraySizes, x ≠ (0 : Int) := by decide

theorem stmStores_eq_chain (mem : SmtArr) (whereBV srcBV : SmtBV) (n : Nat) :
    stmStores mem whereBV srcBV (8 * (n : Int)) = stmChainSpec mem whereBV srcBV n := by
  induction n with
  | zero => rfl
  | succ m ih =>
    have h1 : ((8 * ((m + 1 : Nat) : Int) + 7) / 8).toNat = m + 1 := by push_cast; omega
    have h2 : ((8 * (m : Int) + 7) / 8).toNat = m := by omega
    unfold stmStores
    rw [h1, List.range_succ, List.map_append, List.foldl_append]
    unfold stmStores at ih
    rw [h2] at ih
    simp only [List.map_cons, List.map_nil, List.foldl_cons, List.foldl_nil]
    rw [ih]
    show _ = (stmChainSpec mem whereBV srcBV m).store
      (whereBV.bvadd (Constant whereBV.size (m : Int))) (EXTRACT srcBV (8 * (m : Int)) 8)
    rw [Int.mul_ediv_cancel_left (m : Int) (by norm_num)]

/-- C7: an STM of a `w1 = 8·n`-bit source at current memory version `k` bumps
the memory version by exactly one and returns the single constraint equating
the fresh array `MEM_{k+1}` to `MEM_k` overlaid with nested stores of the `n`
source bytes at consecutive addresses `addr+0 … addr+n-1`, least-significant
byte at the lowest address. -/
theorem C7_stm_little_endian (st : TrState) (v a w1 : Int) (n : Nat)
    (hn : w1 = 8 * (n : Int)) (hn0 : 0 < n)
    (haddr : st.addrSize ∈ trArraySizes)
    (hmem : st.memCurr = .base st.addrSize ("MEM_" ++ toString st.memInstance))
    (hdecl : lookupA st.decls ("MEM_" ++ toString (st.memInstance + 1)) = none) :
    ∃ st', translate_stm st (.imm v w1) .empty (.imm a st.addrSize) =
      .ok ([SmtConstr.eqArr (.base st.addrSize ("MEM_" ++ toString (st.memInstance + 1)))
        (stmChainSpec (.base st.addrSize ("MEM_" ++ toString st.memInstance))
          (Constant st.addrSize a) (Constant w1 v) n)], st') ∧
      st'.memInstance = st.memInstance + 1 ∧
      st'.memCurr = .base st.addrSize ("MEM_" ++ toString (st.memInstance + 1)) := by
  have haz : st.addrSize ≠ 0 := trArraySizes_nonzero st.addrSize haddr
  refine ⟨{ st with
      memInstance := st.memInstance + 1,
      memCurr := .base st.addrSize ("MEM_" ++ toString (st.memInstance + 1)),
      decls := ("MEM_" ++ toString (st.memInstance + 1),
        .arrSym (.base st.addrSize ("MEM_" ++ toString (st.memInstance + 1)))) ::
          st.decls }, ?_, rfl, rfl⟩
  simp only [translate_stm, ReilOperand.size]
  rw [if_neg (by simp [haz]; omega), if_neg (by simp)]
  rw [show translate_src_oprnd st (.imm v w1) = .ok (Constant w1 v, st) from rfl]
  simp only [Except.bind]
  rw [show translate_src_oprnd st (.imm a st.addrSize) =
    .ok (Constant st.addrSize a, st) from rfl]
  simp only [Except.bind]
  rw [hmem, hn, stmStores_eq_chain]
  simp only [make_array, if_pos haddr, hdecl]

/-- C7 witness: a concrete 16-bit store (`n = 2` bytes) from a fresh
translator state. -/
theorem C7_stm_little_endian_witness :
    ∃ st', translate_stm trPlainState (.imm 4386 16) .empty (.imm 4096 32) =
      .ok ([SmtConstr.eqArr (.base 32 ("MEM_" ++ toString (0 + 1)))
        (stmChainSpec (.base 32 ("MEM_" ++ toString 0))
          (Constant 32 4096) (Constant 16 4386) 2)], st') ∧
      st'.memInstance = 0 + 1 ∧
      st'.memCurr = .base 32 ("MEM_" ++ toString (0 + 1)) :=
  C7_stm_little_endian trPlainState 4386 4096 16 2 (by norm_num) (by norm_num)
    (by decide) rfl rfl

/- ------------------------------------------------------------------ -/
/- Claim C1                                                            -/
/- ------------------------------------------------------------------ -/

/-- C1 counterexample: for a sub-register covering the top half of its base
(`W = 32`, `offset = 16`, `sub_width = 16`) — the written range touches the
top end — the translator emits a TWO-range constraint list (the upper one a
degenerate zero-width extract), not the single-range constraint the claim
demands; the claimed boundary `0 < offset < W - sub_width` does not match the
code's `0 < offset < W - 1`. -/
theorem C1_range_rule_counterexample :
    ∃ bv cs st', translate_dst_register_oprnd trC1State "hx" 16 = .ok (bv, cs, st') ∧
      ¬ ClaimC1 32 16 16 cs := by
  refine ⟨_, _, _, rfl, fun h => ?_⟩
  exact absurd (h.2.1.mp rfl).2 (by decide)

/-- C1 amended: for a sub-register destination `(base, offset, sub_width)` in
a base of admissible width `W` (with `0 ≤ offset`, `0 < sub_width`,
`offset + sub_width ≤ W`), the emitted constraints equate ranges of the fresh
base version to the previous version, the bits covered by those ranges are
exactly the bits outside `[offset, offset + sub_width)`, and the list has two
constraints exactly when `0 < offset < W - 1` (the upper one degenerating to
a zero-width extract when the written range reaches the top) and a single
constraint otherwise. -/
theorem C1_subregister_preservation (st : TrState) (nm base : String) (off sz vsize : Int)
    (halias : lookupA st.aliasMapper nm = some (base, off))
    (hsize : lookupA st.regSizes base = some vsize)
    (hbv : vsize ∈ bvSizes)
    (hdecls : st.decls = [])
    (hfreshname : base ++ "_" ++ toString ((lookupA st.versions base).getD 0 + 1) ≠
      base ++ "_" ++ toString ((lookupA st.versions base).getD 0))
    (hoff : 0 ≤ off) (hsz : 0 < sz) (hfit : off + sz ≤ vsize) :
    ∃ cs st',
      translate_dst_register_oprnd st nm sz =
        .ok (EXTRACT (.var vsize
          (base ++ "_" ++ toString ((lookupA st.versions base).getD 0 + 1))) off sz,
          cs, st') ∧
      (∀ c ∈ cs, ∃ o s,
        c = .eqc
          (EXTRACT (.var vsize
            (base ++ "_" ++ toString ((lookupA st.versions base).getD 0 + 1))) o s)
          (EXTRACT (.var vsize
            (base ++ "_" ++ toString ((lookupA st.versions base).getD 0))) o s)) ∧
      (∀ i : Int, 0 ≤ i → i < vsize → ((i < off ∨ off + sz ≤ i) ↔ CoversBit cs i)) ∧
      cs.length = (if 0 < off ∧ off < vsize - 1 then 2 else 1) := by
  have hW : (1 : Int) ≤ vsize := bvSizes_pos vsize hbv
  set k := (lookupA st.versions base).getD 0 with hk
  by_cases hc1 : 0 < off ∧ off < vsize - 1
  · have e1 : EXTRACT (.var vsize (base ++ "_" ++ toString (k + 1))) 0 off =
        .extract off (0 + off - 1) 0 (.var vsize (base ++ "_" ++ toString (k + 1))) := by
      simp only [EXTRACT, SmtBV.size]
      rw [if_neg (by omega)]
    have e1o : EXTRACT (.var vsize (base ++ "_" ++ toString k)) 0 off =
        .extract off (0 + off - 1) 0 (.var vsize (base ++ "_" ++ toString k)) := by
      simp only [EXTRACT, SmtBV.size]
      rw [if_neg (by omega)]
    have e2 : EXTRACT (.var vsize (base ++ "_" ++ toString (k + 1))) (off + sz)
          (vsize - off - sz) =
        .extract (vsize - off - sz) (off + sz + (vsize - off - sz) - 1) (off + sz)
          (.var vsize (base ++ "_" ++ toString (k + 1))) := by
      simp only [EXTRACT, SmtBV.size]
      rw [if_neg (by omega)]
    refine ⟨[.eqc (EXTRACT (.var vsize (base ++ "_" ++ toString (k + 1))) 0 off)
        (EXTRACT (.var vsize (base ++ "_" ++ toString k)) 0 off),
      .eqc (EXTRACT (.var vsize (base ++ "_" ++ toString (k + 1))) (off + sz)
          (vsize - off - sz))
        (EXTRACT (.var vsize (base ++ "_" ++ toString k)) (off + sz)
          (vsize - off - sz))], { st with
        versions := (base, k + 1) :: (base, k) :: st.versions,
        decls := [(base ++ "_" ++ toString k, .bvSym (.var vsize (base ++ "_" ++ toString k))),
          (base ++ "_" ++ toString (k + 1),
            .bvSym (.var vsize (base ++ "_" ++ toString (k + 1))))] }, ?_, ?_, ?_, ?_⟩
    · simp only [translate_dst_register_oprnd, halias, hsize, getVarName, lookupA, hdecls,
        make_bitvec, SmtSym.asBV, Except.bind, hbv, hfreshname, ← hk, if_pos hc1]
      simp [lookupA, hfreshname, SmtSym.asBV, Except.bind]
    · intro c hc
      rcases List.mem_cons.mp hc with rfl | hc
      · exact ⟨0, off, rfl⟩
      · rcases List.mem_cons.mp hc with rfl | hc
        · exact ⟨off + sz, vsize - off - sz, rfl⟩
        · exact absurd hc (List.not_mem_nil c)
    · intro i h0 hi
      constructor
      · rintro (hlt | hge)
        · refine ⟨_, List.mem_cons_self _ _, 0, 0 + off - 1, ?_, by omega, by omega⟩
          rw [e1]
          rfl
        · refine ⟨_, List.mem_cons.mpr (Or.inr (List.mem_cons_self _ _)),
            off + sz, off + sz + (vsize - off - sz) - 1, ?_, by omega, by omega⟩
          rw [e2]
          rfl
      · rintro ⟨c, hc, lo, hi', hcr, hl, hr⟩
        rcases List.mem_cons.mp hc with rfl | hc
        · rw [e1] at hcr
          simp only [constrRange, Option.some.injEq, Prod.mk.injEq] at hcr
          omega
        · rcases List.mem_cons.mp hc with rfl | hc
          · rw [e2] at hcr
            simp only [constrRange, Option.some.injEq, Prod.mk.injEq] at hcr
            omega
          · exact absurd hc (List.not_mem_nil c)
    · rw [if_pos hc1]
      rfl
  · by_cases hc2 : off = 0
    · subst hc2
      have e2 : EXTRACT (.var vsize (base ++ "_" ++ toString (k + 1))) (0 + sz)
            (vsize - 0 - sz) =
          .extract (vsize - 0 - sz) (0 + sz + (vsize - 0 - sz) - 1) (0 + sz)
            (.var vsize (base ++ "_" ++ toString (k + 1))) := by
        simp only [EXTRACT, SmtBV.size]
        rw [if_neg (by omega)]
      refine ⟨[.eqc (EXTRACT (.var vsize (base ++ "_" ++ toString (k + 1))) (0 + sz)
            (vsize - 0 - sz))
          (EXTRACT (.var vsize (base ++ "_" ++ toString k)) (0 + sz)
            (vsize - 0 - sz))], { st with
        versions := (base, k + 1) :: (base, k) :: st.versions,
        decls := [(base ++ "_" ++ toString k, .bvSym (.var vsize (base ++ "_" ++ toString k))),
          (base ++ "_" ++ toString (k + 1),
            .bvSym (.var vsize (base ++ "_" ++ toString (k + 1))))] }, ?_, ?_, ?_, ?_⟩
      · simp only [translate_dst_register_oprnd, halias, hsize, getVarName, lookupA, hdecls,
          make_bitvec, SmtSym.asBV, Except.bind, hbv, hfreshname, ← hk, if_neg hc1]
        simp [lookupA, hfreshname, SmtSym.asBV, Except.bind]
      · intro c hc
        rcases List.mem_cons.mp hc with rfl | hc
        · exact ⟨0 + sz, vsize - 0 - sz, rfl⟩
        · exact absurd hc (List.not_mem_nil c)
      · intro i h0 hi
        constructor
        · rintro (hlt | hge)
          · omega
          · refine ⟨_, List.mem_cons_self _ _, 0 + sz,
              0 + sz + (vsize - 0 - sz) - 1, ?_, by omega, by omega⟩
            rw [e2]
            rfl
        · rintro ⟨c, hc, lo, hi', hcr, hl, hr⟩
          rcases List.mem_cons.mp hc with rfl | hc
          · rw [e2] at hcr
            simp only [constrRange, Option.some.injEq, Prod.mk.injEq] at hcr
            omega
          · exact absurd hc (List.not_mem_nil c)
      · rw [if_neg hc1]
        rfl
    · have hc3 : off = vsize - 1 := by omega
      have hsz1 : sz = 1 := by omega
      have e1 : EXTRACT (.var vsize (base ++ "_" ++ toString (k + 1))) 0 off =
          .extract off (0 + off - 1) 0 (.var vsize (base ++ "_" ++ toString (k + 1))) := by
        simp only [EXTRACT, SmtBV.size]
        rw [if_neg (by omega)]
      refine ⟨[.eqc (EXTRACT (.var vsize (base ++ "_" ++ toString (k + 1))) 0 off)
          (EXTRACT (.var vsize (base ++ "_" ++ toString k)) 0 off)], { st with
        versions := (base, k + 1) :: (base, k) :: st.versions,
        decls := [(base ++ "_" ++ toString k, .bvSym (.var vsize (base ++ "_" ++ toString k))),
          (base ++ "_" ++ toString (k + 1),
            .bvSym (.var vsize (base ++ "_" ++ toString (k + 1))))] }, ?_, ?_, ?_, ?_⟩
      · simp only [translate_dst_register_oprnd, halias, hsize, getVarName, lookupA, hdecls,
          make_bitvec, SmtSym.asBV, Except.bind, hbv, hfreshname, ← hk, if_neg hc1,
          if_neg hc2, if_pos hc3]
        simp [lookupA, hfreshname, SmtSym.asBV, Except.bind]
      · intro c hc
        rcases List.mem_cons.mp hc with rfl | hc
        · exact ⟨0, off, rfl⟩
        · exact absurd hc (List.not_mem_nil c)
      · intro i h0 hi
        constructor
        · rintro (hlt | hge)
          · refine ⟨_, List.mem_cons_self _ _, 0, 0 + off - 1, ?_, by omega, by omega⟩
            rw [e1]
            rfl
          · omega
        · rintro ⟨c, hc, lo, hi', hcr, hl, hr⟩
          rcases List.mem_cons.mp hc with rfl | hc
          · rw [e1] at hcr
            simp only [constrRange, Option.some.injEq, Prod.mk.injEq] at hcr
            omega
          · exact absurd hc (List.not_mem_nil c)
      · rw [if_neg hc1]
        rfl

/-- C1 witness: the amended preservation statement at the concrete alias
`ah = eax[8:16]` in a 32-bit base from a fresh translator state. -/
theorem C1_subregister_preservation_witness :
    ∃ cs st',
      translate_dst_register_oprnd trAliasState "ah" 8 =
        .ok (EXTRACT (.var 32
          ("eax" ++ "_" ++ toString ((lookupA trAliasState.versions "eax").getD 0 + 1))) 8 8,
          cs, st') ∧
      (∀ c ∈ cs, ∃ o s,
        c = .eqc
          (EXTRACT (.var 32
            ("eax" ++ "_" ++ toString ((lookupA trAliasState.versions "eax").getD 0 + 1))) o s)
          (EXTRACT (.var 32
            ("eax" ++ "_" ++ toString ((lookupA trAliasState.versions "eax").getD 0))) o s)) ∧
      (∀ i : Int, 0 ≤ i → i < 32 → ((i < 8 ∨ 8 + 8 ≤ i) ↔ CoversBit cs i)) ∧
      cs.length = (if (0 : Int) < 8 ∧ (8 : Int) < 32 - 1 then 2 else 1) :=
  C1_subregister_preservation trAliasState "ah" "eax" 8 8 32 rfl rfl (by decide) rfl
    (by decide) (by decide) (by decide) (by decide)

/- ------------------------------------------------------------------ -/
/- Claim C8                                                            -/
/- ------------------------------------------------------------------ -/

/-- C8 counterexample: a second `mkBool` under an already-declared name does
NOT return the cached symbol and does NOT leave the declaration map
unchanged — it mints `B_1` and declares it. -/
theorem C8_mkBool_not_cached_counterexample :
    (zmkBool (zmkBool zInit "B").2 "B").1 ≠ (zmkBool zInit "B").1 ∧
    (zmkBool (zmkBool zInit "B").2 "B").2.decls ≠ (zmkBool zInit "B").2.decls := by
  decide

/-- C8 amended: `mkBitVec` and `mkArray` return the cached symbol on a name
collision, leaving the whole solver state (declaration map and sent log)
unchanged; `mkBool` instead renames to `name_sid` with a freshly incremented
id, declares the new symbol, and returns it. -/
theorem C8_declaration_caching (st : ZState) (size : Int) (name : String) (sym : ZSym)
    (hcached : lookupA st.decls name = some sym) :
    (size ∈ bvSizes → zmkBitVec st size name = .ok (sym, st)) ∧
    (size ∈ zArraySizes → zmkArray st size name = .ok (sym, st)) ∧
    (zmkBool st name).1 = .boolSym (name ++ "_" ++ toString (st.sid + 1)) ∧
    (zmkBool st name).2.decls = (name ++ "_" ++ toString (st.sid + 1),
      ZSym.boolSym (name ++ "_" ++ toString (st.sid + 1))) :: st.decls ∧
    (zmkBool st name).2.sent = st.sent ++
      [(ZSym.boolSym (name ++ "_" ++ toString (st.sid + 1))).declaration] := by
  refine ⟨fun h => ?_, fun h => ?_, ?_, ?_, ?_⟩
  · simp [zmkBitVec, h, hcached]
  · simp [zmkArray, h, hcached]
  · simp [zmkBool, hcached, zsend]
  · simp [zmkBool, hcached, zsend]
  · simp [zmkBool, hcached, zsend]

/-- C8 witness: the caching behaviour at the concrete name `B` already
declared (as a Bool) in the solver state. -/
theorem C8_declaration_caching_witness :
    ((32 : Int) ∈ bvSizes → zmkBitVec zWithB 32 "B" = .ok (.boolSym "B", zWithB)) ∧
    ((32 : Int) ∈ zArraySizes → zmkArray zWithB 32 "B" = .ok (.boolSym "B", zWithB)) ∧
    (zmkBool zWithB "B").1 = .boolSym ("B" ++ "_" ++ toString (zWithB.sid + 1)) ∧
    (zmkBool zWithB "B").2.decls = ("B" ++ "_" ++ toString (zWithB.sid + 1),
      ZSym.boolSym ("B" ++ "_" ++ toString (zWithB.sid + 1))) :: zWithB.decls ∧
    (zmkBool zWithB "B").2.sent = zWithB.sent ++
      [(ZSym.boolSym ("B" ++ "_" ++ toString (zWithB.sid + 1))).declaration] :=
  C8_declaration_caching zWithB 32 "B" (.boolSym "B") rfl

/- ------------------------------------------------------------------ -/
/- Claim C9                                                            -/
/- ------------------------------------------------------------------ -/

theorem solverFrame_refl (st : ZState) : SolverFrame st st :=
  ⟨rfl, [], by simp⟩

theorem solverFrame_trans {a b c : ZState} (h1 : SolverFrame a b) (h2 : SolverFrame b c) :
    SolverFrame a c := by
  obtain ⟨s1, l1, e1⟩ := h1
  obtain ⟨s2, l2, e2⟩ := h2
  exact ⟨s2.trans s1, l1 ++ l2, by rw [e2, e1, List.append_assoc]⟩

theorem zsend_frame (st : ZState) (cmd : String) : SolverFrame st (zsend st cmd) :=
  ⟨rfl, [cmd], rfl⟩

theorem zcheck_frame (oracle : ZOracle) (st : ZState) : SolverFrame st (zcheck oracle st).2 := by
  by_cases h : st.status = "unknown"
  · simp only [zcheck, if_pos h]
    exact ⟨rfl, ["(check-sat)"], rfl⟩
  · simp only [zcheck, if_neg h]
    exact solverFrame_refl st

theorem zadd_frame (st : ZState) (arg : ZAddArg) (c : Option String) :
    SolverFrame st (zadd st arg c) := by
  cases arg with
  | pybool b =>
    cases b
    · exact ⟨rfl, [], by simp [zadd]⟩
    · exact solverFrame_refl st
  | sym cst =>
    cases c <;> exact ⟨rfl, [_], rfl⟩

theorem zgetvalue_frame (oracle : ZOracle) (st : ZState) (aux : ZSym) :
    SolverFrame st (zgetvalue oracle st aux).2 := by
  by_cases h : (zcheck oracle st).1 = "sat"
  · simp only [zgetvalue, if_pos h]
    exact solverFrame_trans (zcheck_frame oracle st) (zsend_frame _ _)
  · simp only [zgetvalue, if_neg h]
    exact zcheck_frame oracle st

theorem zcheck_constraints (oracle : ZOracle) (st : ZState) :
    (zcheck oracle st).2.constraints = st.constraints := by
  by_cases h : st.status = "unknown" <;> simp [zcheck, h, zsend]

theorem gavLoop_frame (oracle : ZOracle) (x : SBitVec) (aux : ZSym) (maxcnt : Int) :
    ∀ (fuel : Nat) (r : String) (st : ZState) (acc : List Int),
      (maxcnt + 1 - (acc.length : Int)).toNat = fuel →
      SolverFrame st (gavLoop oracle x aux maxcnt r st acc).2 := by
  intro fuel
  induction fuel using Nat.strong_induction_on with
  | _ fuel ih =>
    intro r st acc hfuel
    rw [gavLoop]
    by_cases hr : r = "unsat"
    · rw [if_pos hr]
      exact solverFrame_refl st
    · rw [if_neg hr]
      have hf1 := zgetvalue_frame oracle st aux
      rcases hgv : zgetvalue oracle st aux with ⟨res, st1⟩
      rw [hgv] at hf1
      cases res with
      | error e => exact hf1
      | ok val =>
        dsimp only
        dsimp only at hf1
        have hlen : (acc ++ [val]).length = acc.length + 1 := by simp
        by_cases hgt : (((acc ++ [val]).length : Nat) : Int) > maxcnt
        · rw [if_pos hgt]
          exact solverFrame_trans hf1 (solverFrame_trans
            (zadd_frame st1 (.sym (x.neIntS val)) none)
            (zcheck_frame oracle (zadd st1 (.sym (x.neIntS val)) none)))
        · rw [if_neg hgt]
          refine solverFrame_trans hf1 (solverFrame_trans
            (solverFrame_trans (zadd_frame st1 (.sym (x.neIntS val)) none)
              (zcheck_frame oracle (zadd st1 (.sym (x.neIntS val)) none))) ?_)
          exact ih ((maxcnt + 1 - ((acc ++ [val]).length : Int)).toNat)
            (by rw [hlen] at hgt ⊢; push_cast at hgt ⊢; omega) _ _ _ rfl

theorem gavLoop_ok_length (oracle : ZOracle) (x : SBitVec) (aux : ZSym) (maxcnt : Int) :
    ∀ (fuel : Nat) (r : String) (st : ZState) (acc : List Int),
      (maxcnt + 1 - (acc.length : Int)).toNat = fuel →
      (acc.length : Int) ≤ maxcnt →
      ∀ vs, (gavLoop oracle x aux maxcnt r st acc).1 = .ok vs → (vs.length : Int) ≤ maxcnt := by
  intro fuel
  induction fuel using Nat.strong_induction_on with
  | _ fuel ih =>
    intro r st acc hfuel hacc vs hok
    rw [gavLoop] at hok
    by_cases hr : r = "unsat"
    · rw [if_pos hr] at hok
      simp only [Except.ok.injEq] at hok
      subst hok
      exact hacc
    · rw [if_neg hr] at hok
      rcases hgv : zgetvalue oracle st aux with ⟨res, st1⟩
      rw [hgv] at hok
      cases res with
      | error e => simp at hok
      | ok val =>
        dsimp only at hok
        have hlen : (acc ++ [val]).length = acc.length + 1 := by simp
        by_cases hgt : (((acc ++ [val]).length : Nat) : Int) > maxcnt
        · rw [if_pos hgt] at hok
          simp at hok
        · rw [if_neg hgt] at hok
          exact ih ((maxcnt + 1 - ((acc ++ [val]).length : Int)).toNat)
            (by rw [hlen] at hgt ⊢; push_cast at hgt ⊢; omega) _ _ _ rfl
            (by rw [hlen] at hgt ⊢; push_cast at hgt ⊢; omega) vs hok

theorem zcheck_after_add (oracle : ZOracle) (hsat : ∀ cs, oracle.checkFn cs = "sat")
    (s : ZState) (c : SBool) :
    (zcheck oracle (zadd s (.sym c) none)).1 = "sat" ∧
    (zcheck oracle (zadd s (.sym c) none)).2.status = "sat" := by
  unfold zcheck
  rw [if_pos (show (zadd s (.sym c) none).status = "unknown" from rfl)]
  exact ⟨hsat _, hsat _⟩

theorem gavLoop_alwayssat_error (oracle : ZOracle) (x : SBitVec) (aux : ZSym) (maxcnt : Int)
    (hsat : ∀ cs, oracle.checkFn cs = "sat") :
    ∀ (fuel : Nat) (st : ZState) (acc : List Int),
      (maxcnt + 1 - (acc.length : Int)).toNat = fuel →
      st.status = "sat" →
      (gavLoop oracle x aux maxcnt "sat" st acc).1 =
        .error "Max number of different solutions hit" := by
  intro fuel
  induction fuel using Nat.strong_induction_on with
  | _ fuel ih =>
    intro st acc hfuel hst
    have hchk : zcheck oracle st = ("sat", st) := by
      unfold zcheck
      rw [if_neg (by rw [hst]; decide), hst]
    rw [gavLoop, if_neg (by decide)]
    rw [show zgetvalue oracle st aux =
      (.ok (oracle.valueFn
          (zsend st ("(get-value (" ++ aux.symName ++ "))")).constraints),
        zsend st ("(get-value (" ++ aux.symName ++ "))")) from by
      simp [zgetvalue, hchk]]
    dsimp only
    have hlen : ∀ v : Int, (acc ++ [v]).length = acc.length + 1 := fun v => by simp
    by_cases hgt : (((acc ++ [oracle.valueFn
        (zsend st ("(get-value (" ++ aux.symName ++ "))")).constraints]).length : Nat) : Int) >
          maxcnt
    · rw [if_pos hgt]
    · rw [if_neg hgt, (zcheck_after_add oracle hsat _ _).1]
      exact ih ((maxcnt + 1 - ((acc ++ [oracle.valueFn
          (zsend st ("(get-value (" ++ aux.symName ++ "))")).constraints]).length : Int)).toNat)
        (by rw [hlen] at hgt ⊢; push_cast at hgt ⊢; omega) _ _ rfl
        (zcheck_after_add oracle hsat _ _).2

theorem zmkBitVec_frame (st : ZState) (size : Int) (name : String) (sym : ZSym) (st' : ZState)
    (h : zmkBitVec st size name = .ok (sym, st')) : SolverFrame st st' := by
  unfold zmkBitVec at h
  by_cases hs : size ∈ bvSizes
  · rw [if_pos hs] at h
    cases hl : lookupA st.decls name
    · rw [hl] at h
      simp only [Except.ok.injEq, Prod.mk.injEq] at h
      rw [← h.2]
      exact ⟨rfl, [(ZSym.bvSym size name).declaration], rfl⟩
    · rw [hl] at h
      simp only [Except.ok.injEq, Prod.mk.injEq] at h
      rw [← h.2]
      exact solverFrame_refl st
  · rw [if_neg hs] at h
    simp at h

theorem gavBody_frame (oracle : ZOracle) (st : ZState) (x : SBitVec) (maxcnt : Int) :
    SolverFrame st (gavBody oracle st x maxcnt).2 := by
  unfold gavBody
  cases hmk : zmkBitVec st x.size "V" with
  | error e => exact solverFrame_refl st
  | ok q =>
    rcases q with ⟨aux, st1⟩
    dsimp only
    have hf1 : SolverFrame st st1 := zmkBitVec_frame st x.size "V" aux st1 hmk
    cases hsq : zsymEq aux x with
    | error e => exact hf1
    | ok c =>
      dsimp only
      refine solverFrame_trans hf1 (solverFrame_trans
        (solverFrame_trans (zadd_frame st1 (.sym c) none)
          (zcheck_frame oracle (zadd st1 (.sym c) none))) ?_)
      exact gavLoop_frame oracle x aux maxcnt _ _ _ [] rfl

theorem gavBody_ok_length (oracle : ZOracle) (st : ZState) (x : SBitVec) (maxcnt : Int)
    (hmax : 0 ≤ maxcnt) :
    ∀ vs, (gavBody oracle st x maxcnt).1 = .ok vs → (vs.length : Int) ≤ maxcnt := by
  unfold gavBody
  cases hmk : zmkBitVec st x.size "V" with
  | error e =>
    intro vs h
    simp at h
  | ok q =>
    rcases q with ⟨aux, st1⟩
    dsimp only
    cases hsq : zsymEq aux x with
    | error e =>
      intro vs h
      simp at h
    | ok c =>
      intro vs h
      dsimp only at h
      exact gavLoop_ok_length oracle x aux maxcnt _ _ _ [] rfl (by simpa using hmax) vs h

theorem zpop_of_stack {st' : ZState} {snap : Nat × List (String × ZSym) × List (SBool × Option String)}
    {rest : List (Nat × List (String × ZSym) × List (SBool × Option String))}
    (h : st'.stack = snap :: rest) :
    zpop st' = { st' with
      sid := snap.1,
      decls := snap.2.1,
      constraints := snap.2.2,
      stack := rest,
      status := "unknown",
      sent := st'.sent ++ ["(pop 1)"] } := by
  rcases snap with ⟨sid, decls, constraints⟩
  simp [zpop, zsend, h]

/-- C9: `getallvalues` (from a state whose last check answered sat, with a
nonnegative cap) pushes one solver scope and pops it on every path, restoring
the constraint list, the declaration map and the stack to their values before
the call; a normal return carries at most `maxcnt` answers; and with a solver
that never answers unsat it raises the max-solutions exception instead of
looping or returning. -/
theorem C9_getallvalues_scoped (oracle : ZOracle) (st : ZState) (x : SBitVec) (maxcnt : Int)
    (hsat : st.status = "sat") (hmax : 0 ≤ maxcnt) :
    ((getallvalues oracle st x maxcnt).2.constraints = st.constraints ∧
     (getallvalues oracle st x maxcnt).2.decls = st.decls ∧
     (getallvalues oracle st x maxcnt).2.stack = st.stack) ∧
    (∀ vs, (getallvalues oracle st x maxcnt).1 = .ok vs → (vs.length : Int) ≤ maxcnt) ∧
    (∃ mid, (getallvalues oracle st x maxcnt).2.sent =
      st.sent ++ "(push 1)" :: (mid ++ ["(pop 1)"])) ∧
    ((∀ cs, oracle.checkFn cs = "sat") → lookupA st.decls "V" = none → x.size ∈ bvSizes →
      (getallvalues oracle st x maxcnt).1 =
        .error "Max number of different solutions hit") := by
  have hchk0 : zcheck oracle st = ("sat", st) := by
    unfold zcheck
    rw [if_neg (by rw [hsat]; decide), hsat]
  have hga : getallvalues oracle st x maxcnt =
      ((gavBody oracle (zpush st) x maxcnt).1,
        zpop (gavBody oracle (zpush st) x maxcnt).2) := by
    unfold getallvalues
    rw [hchk0]
    rw [if_neg (show ¬(("sat", st).1 ≠ "sat") from by simp)]
  obtain ⟨hstk, l, hsent⟩ := gavBody_frame oracle (zpush st) x maxcnt
  have hstk' : (gavBody oracle (zpush st) x maxcnt).2.stack =
      (st.sid, st.decls, st.constraints) :: st.stack := hstk
  have hpop := zpop_of_stack hstk'
  refine ⟨⟨?_, ?_, ?_⟩, ?_, ?_, ?_⟩
  · rw [hga]
    simp [hpop]
  · rw [hga]
    simp [hpop]
  · rw [hga]
    simp [hpop]
  · intro vs hok
    rw [hga] at hok
    exact gavBody_ok_length oracle (zpush st) x maxcnt hmax vs hok
  · refine ⟨l, ?_⟩
    rw [hga]
    simp only [hpop]
    rw [hsent]
    simp [zpush, zsend]
  · intro horacle hV hxs
    rw [hga]
    show (gavBody oracle (zpush st) x maxcnt).1 = _
    unfold gavBody
    rw [show zmkBitVec (zpush st) x.size "V" =
      .ok (.bvSym x.size "V",
        { zsend (zpush st) (ZSym.bvSym x.size "V").declaration with
          decls := ("V", .bvSym x.size "V") :: (zpush st).decls }) from by
      unfold zmkBitVec
      rw [if_pos hxs, show lookupA (zpush st).decls "V" = none from hV]]
    dsimp only
    rw [show zsymEq (.bvSym x.size "V") x = .ok ⟨"(= " ++ "V" ++ " " ++ x.value ++ ")"⟩ from by
      simp [zsymEq]]
    dsimp only
    rw [(zcheck_after_add oracle horacle _ _).1]
    exact gavLoop_alwayssat_error oracle x (.bvSym x.size "V") maxcnt horacle _ _ [] rfl
      (zcheck_after_add oracle horacle _ _).2

/-- C9 witness: the scoped-collection statement at a concrete sat state, a
concrete 32-bit symbol and cap 3. -/
theorem C9_getallvalues_scoped_witness :
    ((getallvalues oracleAlwaysSat zSatState ⟨32, "x"⟩ 3).2.constraints =
        zSatState.constraints ∧
     (getallvalues oracleAlwaysSat zSatState ⟨32, "x"⟩ 3).2.decls = zSatState.decls ∧
     (getallvalues oracleAlwaysSat zSatState ⟨32, "x"⟩ 3).2.stack = zSatState.stack) ∧
    (∀ vs, (getallvalues oracleAlwaysSat zSatState ⟨32, "x"⟩ 3).1 = .ok vs →
      (vs.length : Int) ≤ 3) ∧
    (∃ mid, (getallvalues oracleAlwaysSat zSatState ⟨32, "x"⟩ 3).2.sent =
      zSatState.sent ++ "(push 1)" :: (mid ++ ["(pop 1)"])) ∧
    ((∀ cs, oracleAlwaysSat.checkFn cs = "sat") →
      lookupA zSatState.decls "V" = none → (32 : Int) ∈ bvSizes →
      (getallvalues oracleAlwaysSat zSatState ⟨32, "x"⟩ 3).1 =
        .error "Max number of different solutions hit") :=
  C9_getallvalues_scoped oracleAlwaysSat zSatState ⟨32, "x"⟩ 3 rfl (by decide)

end BarfSpec
